import Mathlib

/-!
Verification development for the montesarchio-track-ac-mod repository.

Two layers are modelled:

1. The racing-line generator (scripts/generate_ai_line.py): boundary-edge
   chaining, centerline extraction, curvature, speed profile and the
   structure of the written racing-line file.  Real arithmetic done by
   numpy on floats is modelled exactly over the rationals; the square
   root inside np.linalg.norm is abstracted as an explicit function
   parameter (theorems assume only that it is nonnegative-valued).

2. The KN5 binary writer (scripts/export_kn5.py) and reader
   (tools/track_viewer.py): modelled byte-exactly over streams
   represented as lists of byte values (List Nat).  A 32-bit float is
   represented by its IEEE-754 bit pattern (a natural number below
   2 to the 32), so that struct.pack followed by struct.unpack at
   width f32 is the identity on patterns; the Python-level conversion
   of a double to the nearest float32 happens before the modelled
   boundary.  Strings are represented by their UTF-8 byte lists, since
   encode/decode is a bijection the format never observes.
-/

namespace Track

/- Batteries marks the rational-number operations irreducible, which
blocks the elaborator from evaluating concrete witnesses by decide;
restore reducibility for this file. -/
attribute [local semireducible] Rat.add Rat.mul Rat.sub Rat.inv

/-! ### Rational 3d points and small vector helpers -/

abbrev Pt3 : Type := ℚ × ℚ × ℚ

def sub3 (p q : Pt3) : Pt3 := (p.1 - q.1, p.2.1 - q.2.1, p.2.2 - q.2.2)

/-- Squared euclidean norm of a 3-vector; np.sum(v ** 2). -/
def sqnorm3 (p : Pt3) : ℚ := p.1 ^ 2 + p.2.1 ^ 2 + p.2.2 ^ 2

/-- np.sum((a - b) ** 2), the squared distance used by the alignment steps. -/
def sqdist3 (p q : Pt3) : ℚ := sqnorm3 (sub3 p q)

def midpoint3 (p q : Pt3) : Pt3 :=
  ((p.1 + q.1) / 2, (p.2.1 + q.2.1) / 2, (p.2.2 + q.2.2) / 2)

/-- First index of the minimum of the list; np.argmin (ties broken by the
earliest index, matching numpy). -/
def argminQ (l : List ℚ) : Nat :=
  (l.enum.foldl (fun (best : Nat × ℚ) (p : Nat × ℚ) =>
    if p.2 < best.2 then p else best) (0, l.headD 0)).1

/-- One cross-product term of the shoelace sum. -/
def cross2 (p q : ℚ × ℚ) : ℚ := p.1 * q.2 - q.1 * p.2

/-- np.sum(pts[:-1, 0] * pts[1:, 1] - pts[1:, 0] * pts[:-1, 1]):
the signed-area sum over consecutive pairs (without the wrap-around
term), exactly as generate_ai_line.py line 138 computes it. -/
def signedArea2 : List (ℚ × ℚ) → ℚ
  | p :: q :: t => cross2 p q + signedArea2 (q :: t)
  | _ => 0

/-- Projection onto the first two (Blender x, y) coordinates. -/
def proj2 (l : List Pt3) : List (ℚ × ℚ) := l.map (fun p => (p.1, p.2.1))

def signedAreaPts (l : List Pt3) : ℚ := signedArea2 (proj2 l)

/-! ### Boundary-edge chaining (generate_ai_line.py, chain_boundary_loops)

The bmesh accessor surface is modelled as a read-only structure: the
ordered list of boundary edges (bm.edges filtered by is_boundary), the
ordered list of edges linked to a vertex (v.link_edges), and the
world-space coordinate of a vertex (world_mat applied to v.co). -/

structure BEdge where
  eid : Nat
  v1 : Nat
  v2 : Nat
deriving DecidableEq, Repr

structure RoadMesh where
  boundaryEdges : List BEdge
  link : Nat → List BEdge
  coord : Nat → Pt3

/-- current.other_vert(v). -/
def otherVert (e : BEdge) (v : Nat) : Nat := if v = e.v1 then e.v2 else e.v1

/-- The while-loop of chain_boundary_loops: walk edge-to-edge through
unvisited boundary edges, recording the world coordinate of the entry
vertex of each visited edge.  Returns the recorded vertex list and the
updated visited set.  Fuel bounds the recursion; callers pass one more
than the number of boundary edges, which the strictly growing visited
set can never exhaust. -/
def walkLoop (g : RoadMesh) : Nat → BEdge → Nat → List BEdge → List Pt3 × List BEdge
  | 0, _, _, visited => ([], visited)
  | fuel + 1, current, v, visited =>
    if current ∈ visited then ([], visited)
    else
      let visited := current :: visited
      let pt := g.coord v
      let other := otherVert current v
      match (g.link other).find? (fun e =>
          decide (e ∈ g.boundaryEdges) && !decide (e ∈ visited)) with
      | none => ([pt], visited)
      | some nxt =>
        let r := walkLoop g fuel nxt other visited
        (pt :: r.1, r.2)

/-- One iteration of the for-loop of chain_boundary_loops: skip already
visited start edges, otherwise walk from the edge (entering at verts[0])
and append the recorded vertex list only when it has more than 2
entries. -/
def chainStep (g : RoadMesh) (st : List (List Pt3) × List BEdge) (se : BEdge) :
    List (List Pt3) × List BEdge :=
  if se ∈ st.2 then st
  else
    let w := walkLoop g (g.boundaryEdges.length + 1) se se.v1 st.2
    (if 2 < w.1.length then st.1 ++ [w.1] else st.1, w.2)

/-- The for-loop of chain_boundary_loops over all boundary edges. -/
def chainLoops (g : RoadMesh) : List (List Pt3) :=
  (g.boundaryEdges.foldl (chainStep g) ([], [])).1

/-- Errors of the racing-line stage.  The script reports them by printing
an ERROR line and calling sys.exit(1); each exit site is modelled as one
constructor carrying the data interpolated into the printed message. -/
inductive AiError where
  | noBoundaryEdges : AiError
  | topologyError (found : Nat) : AiError
  | roadObjectMissing : AiError
deriving DecidableEq, Repr

/-- chain_boundary_loops including its no-boundary-edges exit. -/
def chain_boundary_loops (g : RoadMesh) : Except AiError (List (List Pt3)) :=
  if g.boundaryEdges = [] then .error .noBoundaryEdges
  else .ok (chainLoops g)

/-! ### Centerline extraction (generate_ai_line.py, extract_centerline) -/

/-- Lines 107-147 of generate_ai_line.py: truncate the two loops to a
common length, align loop b to loop a, reverse loop b if it runs the
other way (re-aligning afterwards), take midpoints, and reverse the
whole centerline when its signed area is positive (counter-clockwise). -/
def centerlineFromLoops (loop_a0 loop_b0 : List Pt3) : List Pt3 :=
  let minLen := min loop_a0.length loop_b0.length
  let loop_a := if loop_a0.length = loop_b0.length then loop_a0 else loop_a0.take minLen
  let loop_b1 := if loop_a0.length = loop_b0.length then loop_b0 else loop_b0.take minLen
  let a0 := loop_a.getD 0 (0, 0, 0)
  let loop_b2 := loop_b1.rotate (argminQ (loop_b1.map (fun p => sqdist3 p a0)))
  let a1 := loop_a.getD 1 (0, 0, 0)
  let d_fwd := sqdist3 a1 (loop_b2.getD 1 (0, 0, 0))
  let d_bwd := sqdist3 a1 (loop_b2.getLastD (0, 0, 0))
  let loop_b :=
    if d_bwd < d_fwd then
      let r := loop_b2.reverse
      r.rotate (argminQ (r.map (fun p => sqdist3 p a0)))
    else loop_b2
  let centerline := List.zipWith midpoint3 loop_a loop_b
  if 0 < signedAreaPts centerline then centerline.reverse else centerline

/-- extract_centerline: chain the boundary loops of the road mesh, fail
with the observed loop count when it is not exactly 2, otherwise build
the direction-normalized centerline. -/
def extract_centerline (g : RoadMesh) : Except AiError (List Pt3) := do
  let loops ← chain_boundary_loops g
  if loops.length = 2 then
    pure (centerlineFromLoops (loops.getD 0 []) (loops.getD 1 []))
  else
    .error (.topologyError loops.length)

/-! ### Curvature and speeds -/

/-- compute_curvature over the 2d projection, indices wrapping modulo the
length.  The square root inside np.linalg.norm is abstracted as the
function argument sq applied to the squared norm. -/
def compute_curvature (sq : ℚ → ℚ) (pts : List (ℚ × ℚ)) : List ℚ :=
  let n := pts.length
  (List.range n).map (fun i =>
    let p0 := pts.getD ((i + n - 1) % n) (0, 0)
    let p1 := pts.getD i (0, 0)
    let p2 := pts.getD ((i + 1) % n) (0, 0)
    let v1 := (p1.1 - p0.1, p1.2 - p0.2)
    let v2 := (p2.1 - p1.1, p2.2 - p1.2)
    let cr := |v1.1 * v2.2 - v1.2 * v2.1|
    let l1 := sq (v1.1 ^ 2 + v1.2 ^ 2)
    let l2 := sq (v2.1 ^ 2 + v2.2 ^ 2)
    if 0 < l1 ∧ 0 < l2 then cr / (l1 * l2) else 0)

/-- np.max over a list (0 for the empty list, which np.max rejects; every
use site has a nonempty list). -/
def maxListQ (l : List ℚ) : ℚ := l.foldl max (l.headD 0)

/-- Ascending insertion of one element into a sorted list. -/
def insertSorted (x : ℚ) : List ℚ → List ℚ
  | [] => [x]
  | y :: t => if x ≤ y then x :: y :: t else y :: insertSorted x t

/-- Ascending sort (insertion sort; kernel-evaluable stand-in for
np.sort, which only the sorted order of matters). -/
def sortQ (l : List ℚ) : List ℚ := l.foldr insertSorted []

/-- np.percentile(l, 95) with the default linear interpolation method:
sort ascending, take position 0.95 * (n - 1) and interpolate between the
two neighbouring order statistics. -/
def percentile95 (l : List ℚ) : ℚ :=
  let s := sortQ l
  let n := s.length
  let pos : ℚ := (19 * ((n : ℚ) - 1)) / 20
  let f : Nat := pos.floor.toNat
  let base := s.getD f 0
  base + (pos - (f : ℚ)) * (s.getD (f + 1) base - base)

/-- np.clip(x, 0, 1). -/
def clip01 (x : ℚ) : ℚ := min 1 (max x 0)

/-- The normalization divisor of compute_speeds: the 95th percentile of
the curvature, or 1 when the maximum curvature is zero. -/
def speedsDivisor (curvature : List ℚ) : ℚ :=
  if 0 < maxListQ curvature then percentile95 curvature else 1

/-- The speed values of compute_speeds before the smoothing convolution,
in the rational idealization that the pipeline downstream (smoothing,
gas and brake profiles, file layout) is stated over: normalize curvature
by its 95th percentile (divisor 1 when the maximum curvature is zero),
clip into the unit interval, interpolate between default speed and
minimum corner speed.  The rational convention c / 0 = 0 silently tames
the divisor-zero case; the program instead produces NaN and inf there,
which speedsPreSmoothF below models faithfully, and the two agree
whenever the divisor is nonzero (speedsPreSmoothF_agrees).  The
file-layout claims stated through this definition do not depend on the
numeric value of the speeds. -/
def speedsPreSmooth (defaultSpeed minCornerSpeed : ℚ) (curvature : List ℚ) : List ℚ :=
  curvature.map (fun c =>
    defaultSpeed - clip01 (c / speedsDivisor curvature) * (defaultSpeed - minCornerSpeed))

/-- Value domain of the numpy float computation at the points where
division by zero can occur: an ordinary (finite) value, a signed
infinity, or NaN. -/
inductive FQ where
  | num (q : ℚ) : FQ
  | inf : FQ
  | ninf : FQ
  | nan : FQ
deriving DecidableEq, Repr

/-- IEEE division of a finite numerator by a finite divisor: finite when
the divisor is nonzero; 0 / 0 is NaN; otherwise a signed infinity. -/
def fdivQ (c m : ℚ) : FQ :=
  if m ≠ 0 then .num (c / m)
  else if c = 0 then .nan
  else if 0 < c then .inf
  else .ninf

/-- np.clip(x, 0, 1) = minimum(maximum(x, 0), 1): numpy's maximum and
minimum propagate NaN, and the infinities clamp to the interval ends. -/
def fclip01 : FQ → FQ
  | .num q => .num (clip01 q)
  | .inf => .num 1
  | .ninf => .num 0
  | .nan => .nan

/-- defaultSpeed - nc * (defaultSpeed - minCornerSpeed) in IEEE
arithmetic over the normalized curvature nc (an infinite nc multiplies
a zero speed span to NaN, otherwise flips sign through the
subtraction). -/
def speedOfNorm (defaultSpeed minCornerSpeed : ℚ) : FQ → FQ
  | .num q => .num (defaultSpeed - q * (defaultSpeed - minCornerSpeed))
  | .nan => .nan
  | .inf =>
    if minCornerSpeed < defaultSpeed then .ninf
    else if defaultSpeed < minCornerSpeed then .inf
    else .nan
  | .ninf =>
    if minCornerSpeed < defaultSpeed then .inf
    else if defaultSpeed < minCornerSpeed then .ninf
    else .nan

/-- The pre-smoothing speed values of compute_speeds in float semantics:
numpy's division-by-zero behaviour is kept, which the program hits
whenever at least 95 percent of the curvature samples are zero while the
maximum is positive — the 95th-percentile divisor is then 0.0, the zero
entries divide 0 / 0 to NaN (propagated by np.clip), and the positive
entries divide to inf (clipped to 1). -/
def speedsPreSmoothF (defaultSpeed minCornerSpeed : ℚ) (curvature : List ℚ) : List FQ :=
  curvature.map (fun c =>
    speedOfNorm defaultSpeed minCornerSpeed (fclip01 (fdivQ c (speedsDivisor curvature))))

/-- Whether a float value is an ordinary number lying inside the closed
interval (an infinity or NaN lies in no interval). -/
def fqInBounds (lo hi : ℚ) : FQ → Bool
  | .num q => decide (lo ≤ q ∧ q ≤ hi)
  | _ => false

/-- np.convolve(speeds, np.ones(15) / 15, mode same): numpy swaps the
arguments so the longer sequence comes first, computes the full
convolution and returns its centered slice of length max(n, 15). -/
def convSame15 (s : List ℚ) : List ℚ :=
  let n := s.length
  let m := max n 15
  let lo := (min n 15 - 1) / 2
  (List.range m).map (fun i =>
    ((List.range n).foldl (fun acc j =>
      if j ≤ i + lo ∧ i + lo - j ≤ 14 then acc + s.getD j 0 else acc) 0) / 15)

/-- compute_speeds: curvature-based target speeds followed by the
15-sample moving-average smoothing. -/
def compute_speeds (defaultSpeed minCornerSpeed : ℚ) (curvature : List ℚ) : List ℚ :=
  convSame15 (speedsPreSmooth defaultSpeed minCornerSpeed curvature)

/-! ### The racing-line file (generate_ai_line.py, write_ai_file)

The file layout is modelled structurally: the record below holds, field
by field and in file order, exactly the values the script packs (floats
idealized as rationals).  startPos models the optional AC_START_0 marker
position queried from the scene. -/

structure AiFile where
  version : Int
  numPoints : Nat
  points : List (Pt3 × ℚ × Nat)
  speedSection : List ℚ
  gasSection : List ℚ
  brakeSection : List ℚ
  lateralSection : List ℚ
deriving DecidableEq, Repr

/-- find_start_index: first centerline index closest (2d, Blender x-y) to
the start marker; 0 with a warning when the marker is absent. -/
def find_start_index (startPos : Option (ℚ × ℚ)) (pts : List Pt3) : Nat :=
  match startPos with
  | none => 0
  | some q =>
    argminQ (pts.map (fun p => (p.1 - q.1) ^ 2 + (p.2.1 - q.2) ^ 2))

/-- Blender (x, y, z) to AC (x, z, -y). -/
def acConvert (p : Pt3) : Pt3 := (p.1, p.2.2, -p.2.1)

/-- The rolled (start-aligned) centerline that write_ai_file operates on;
np.roll with a negative shift is a left rotation. -/
def rolledCenterline (startPos : Option (ℚ × ℚ)) (centerline : List Pt3) : List Pt3 :=
  centerline.rotate (find_start_index startPos centerline)

/-- The per-segment lengths np.linalg.norm(np.diff(ac_pts, axis=0)):
sq abstracts the square root, applied to the squared segment norm. -/
def segLengths (sq : ℚ → ℚ) (pts : List Pt3) : List ℚ :=
  (pts.zip pts.tail).map (fun pq => sq (sqnorm3 (sub3 pq.2 pq.1)))

/-- The cumulative-distance array: cum_dist[0] = 0 and
cum_dist[1:] = np.cumsum(seg_lengths).  The scanl over the n - 1 segment
lengths has length n for a nonempty point list; the take mirrors the
empty case where the script writes no points at all. -/
def cumDistArray (sq : ℚ → ℚ) (pts : List Pt3) : List ℚ :=
  ((segLengths sq pts).scanl (· + ·) 0).take pts.length

/-- write_ai_file: start-align the centerline, convert to engine axes,
compute cumulative distances, curvature, smoothed speeds, gas and brake
profiles, and lay the values out in file order.  Speeds are divided by
3.6 (km/h to m/s) when written.  Sections are written by indexing the
profile arrays at 0..n-1, matching the for-loops of the script (the
smoothed speed array can be longer than n when n < 15, because
np.convolve mode same returns max(n, 15) samples). -/
def write_ai_file (sq : ℚ → ℚ) (startPos : Option (ℚ × ℚ))
    (defaultSpeed minCornerSpeed : ℚ) (centerline : List Pt3) : AiFile :=
  let cb := rolledCenterline startPos centerline
  let n := cb.length
  let acPts := cb.map acConvert
  let cum := cumDistArray sq acPts
  let curvature := compute_curvature sq (proj2 cb)
  let speeds := compute_speeds defaultSpeed minCornerSpeed curvature
  let maxSpeed := maxListQ speeds
  let gas := speeds.map (fun s => s / maxSpeed)
  let brake := gas.map (fun gv => clip01 (1 - gv) * (3 / 10))
  { version := 7
    numPoints := n
    points := (List.range n).map (fun i => (acPts.getD i (0, 0, 0), cum.getD i 0, i))
    speedSection := (List.range n).map (fun i => speeds.getD i 0 / (18 / 5))
    gasSection := (List.range n).map (fun i => gas.getD i 0)
    brakeSection := (List.range n).map (fun i => brake.getD i 0)
    lateralSection := List.replicate n 0 }

/-- main of generate_ai_line.py: extract the centerline, then write the
file.  A sys.exit inside extraction aborts before write_ai_file runs, so
on error no output value exists (the script never reaches the os.makedirs
call that would create the output directory). -/
def generate_main (sq : ℚ → ℚ) (startPos : Option (ℚ × ℚ))
    (defaultSpeed minCornerSpeed : ℚ) (g : RoadMesh) : Except AiError AiFile := do
  let c ← extract_centerline g
  pure (write_ai_file sq startPos defaultSpeed minCornerSpeed c)

/-! ### Byte-level primitives (little-endian)

Byte streams are lists of byte values.  struct.pack raises on an
out-of-range argument, so the write primitives are Option-valued; the
unchecked raw variants are used to state what the successful pack
produced. -/

/-- The four little-endian bytes of a 32-bit value. -/
def encN32 (m : Nat) : List Nat :=
  [m % 256, m / 256 % 256, m / 65536 % 256, m / 16777216 % 256]

/-- Reassemble a 32-bit value from four little-endian bytes (only ever
applied to 4-byte reads; the fallback is unreachable because every
unpack site checks the length first). -/
def decN32 : List Nat → Nat
  | b0 :: b1 :: b2 :: b3 :: _ => b0 + 256 * b1 + 65536 * b2 + 16777216 * b3
  | _ => 0

/-- The bytes struct.pack with format i produces (two's complement). -/
def encI32raw (n : Int) : List Nat := encN32 (n % (2 ^ 32 : Int)).toNat

/-- struct.pack with format i: in-range check, then two's complement. -/
def encI32 (n : Int) : Option (List Nat) :=
  if -(2 ^ 31) ≤ n ∧ n < 2 ^ 31 then some (encI32raw n) else none

/-- struct.unpack with format i. -/
def decI32 (bs : List Nat) : Int :=
  if decN32 bs < 2 ^ 31 then (decN32 bs : Int) else (decN32 bs : Int) - 2 ^ 32

/-- The bytes struct.pack with format H produces. -/
def encU16raw (n : Nat) : List Nat := [n % 256, n / 256]

/-- struct.pack with format H: fails above 65535. -/
def encU16 (n : Nat) : Option (List Nat) :=
  if n ≤ 65535 then some (encU16raw n) else none

/-- struct.pack with format B. -/
def encU8 (n : Nat) : Option (List Nat) :=
  if n ≤ 255 then some [n] else none

/-- A 32-bit float written as its IEEE-754 bit pattern (pack with format
f never fails; patterns are reduced modulo 2 to the 32). -/
def encF32 (bits : Nat) : List Nat := encN32 (bits % 2 ^ 32)

/-- Errors of the KN5 reader; each ValueError raise site of
track_viewer.py is one constructor carrying the interpolated data, and
eof stands for struct.unpack raising on a short read. -/
inductive FormatError where
  | badMagic (found : List Nat) : FormatError
  | badStringLength (len : Int) : FormatError
  | eof : FormatError
deriving DecidableEq, Repr

/-- A checked read of exactly n bytes (struct.unpack raises when f.read
returns fewer bytes than the format needs). -/
def readBytes (n : Nat) (s : List Nat) : Except FormatError (List Nat × List Nat) :=
  if n ≤ s.length then .ok (s.take n, s.drop n) else .error .eof

/-- Read a little-endian int32. -/
def readI32 (s : List Nat) : Except FormatError (Int × List Nat) := do
  let (bs, s) ← readBytes 4 s
  pure (decI32 bs, s)

/-- read_string of track_viewer.py: 4-byte signed length prefix, bounds
check (raise on length below 0 or above 10000), then the payload bytes.
Python f.read(n) silently returns fewer bytes at end of file and the
utf-8 decode with errors replace never fails, hence the unchecked take
of the payload. -/
def read_string (s : List Nat) : Except FormatError (List Nat × List Nat) := do
  let (lb, s) ← readBytes 4 s
  let len := decI32 lb
  if len < 0 ∨ 10000 < len then .error (.badStringLength len)
  else pure (s.take len.toNat, s.drop len.toNat)

/-! ### KN5 reader (tools/track_viewer.py, parse_kn5 and parse_node) -/

/-- One mesh dictionary appended by parse_node: vertex positions, normals
and uvs are f32 bit patterns; the tangent bytes of each 44-byte vertex
record are consumed but not decoded, exactly as unpack_from reads only
offsets 0, 12 and 24 of each record. -/
structure MeshRec where
  name : List Nat
  verts : List (Nat × Nat × Nat)
  normals : List (Nat × Nat × Nat)
  uvs : List (Nat × Nat)
  indices : List Nat
  mat_id : Int
  tri_count : Nat
deriving DecidableEq, Repr

/-- Split the raw index buffer into uint16 values (np.frombuffer). -/
def splitU16 : List Nat → List Nat
  | a :: b :: t => (a + 256 * b) :: splitU16 t
  | _ => []

/-- Split the raw vertex buffer into its n 44-byte records. -/
def splitVertexBlock : Nat → List Nat → List (List Nat)
  | 0, _ => []
  | k + 1, bs => bs.take 44 :: splitVertexBlock k (bs.drop 44)

/-- struct.unpack_from at float offset k of a vertex record. -/
def recF32 (r : List Nat) (k : Nat) : Nat := decN32 ((r.drop (4 * k)).take 4)

def recPos (r : List Nat) : Nat × Nat × Nat := (recF32 r 0, recF32 r 1, recF32 r 2)

def recNormal (r : List Nat) : Nat × Nat × Nat := (recF32 r 3, recF32 r 4, recF32 r 5)

def recUv (r : List Nat) : Nat × Nat := (recF32 r 6, recF32 r 7)

mutual

/-- parse_node of track_viewer.py, with the mesh accumulator passed
explicitly (the script appends to a closed-over list).  The recursion is
bounded by fuel; parse_kn5 passes more fuel than the stream has bytes,
which the header consumed at every level can never exhaust.  A node of
unknown type reads no children, exactly like the script, which simply
falls through both type branches.  The f.read skips without a subsequent
unpack (matrix, mesh flags, trailer) are unchecked drops, matching
f.read returning short at end of file without raising. -/
def parse_node : Nat → List Nat → List MeshRec →
    Except FormatError (List MeshRec × List Nat)
  | 0, _, _ => .error .eof
  | fuel + 1, s, acc => do
    let (nodeType, s) ← readI32 s
    let (name, s) ← read_string s
    let (numChildren, s) ← readI32 s
    let (_, s) ← readBytes 1 s
    if nodeType = 1 then
      parseChildren fuel numChildren.toNat (s.drop 64) acc
    else if nodeType = 2 then do
      let s := s.drop 3
      let (vertCount, s) ← readI32 s
      let (raw, s) ← readBytes (vertCount.toNat * 44) s
      let recs := splitVertexBlock vertCount.toNat raw
      let (idxCount, s) ← readI32 s
      let (idxRaw, s) ← readBytes (idxCount.toNat * 2) s
      let (matId, s) ← readI32 s
      let s := s.drop 29
      let m : MeshRec :=
        { name := name
          verts := recs.map recPos
          normals := recs.map recNormal
          uvs := recs.map recUv
          indices := splitU16 idxRaw
          mat_id := matId
          tri_count := idxCount.toNat / 3 }
      parseChildren fuel numChildren.toNat s (acc ++ [m])
    else
      pure (acc, s)
termination_by fuel _ _ => (fuel, 0)

/-- Recursively descend exactly as many children as declared. -/
def parseChildren (fuel : Nat) : Nat → List Nat → List MeshRec →
    Except FormatError (List MeshRec × List Nat)
  | 0, s, acc => .ok (acc, s)
  | k + 1, s, acc => do
    let (acc, s) ← parse_node fuel s acc
    parseChildren fuel k s acc
termination_by k _ _ => (fuel, k + 1)

end

/-- The 6 magic bytes sc6969. -/
def kn5Magic : List Nat := [115, 99, 54, 57, 54, 57]

/-- One parsed material entry (property values are read and discarded by
the viewer, hence absent). -/
structure MatRec where
  name : List Nat
  shader : List Nat
  samplers : List (List Nat × Int × List Nat)
deriving DecidableEq, Repr

/-- The texture loop of parse_kn5: type, name, byte length, raw bytes;
only type 1 entries are kept. -/
def parseTextures : Nat → List Nat →
    Except FormatError (List (List Nat × List Nat) × List Nat)
  | 0, s => .ok ([], s)
  | k + 1, s => do
    let (texType, s) ← readI32 s
    let (name, s) ← read_string s
    let (size, s) ← readI32 s
    let data := s.take size.toNat
    let s := s.drop size.toNat
    let (rest, s) ← parseTextures k s
    pure ((if texType = 1 then [(name, data)] else []) ++ rest, s)

/-- The property loop of a material: name, float value plus 36 bytes of
padding, all discarded. -/
def parseProps : Nat → List Nat → Except FormatError (List Nat)
  | 0, s => .ok s
  | k + 1, s => do
    let (_, s) ← read_string s
    parseProps k (s.drop 40)

/-- The sampler loop of a material. -/
def parseSamplers : Nat → List Nat →
    Except FormatError (List (List Nat × Int × List Nat) × List Nat)
  | 0, s => .ok ([], s)
  | k + 1, s => do
    let (sname, s) ← read_string s
    let (slot, s) ← readI32 s
    let (stex, s) ← read_string s
    let (rest, s) ← parseSamplers k s
    pure ((sname, slot, stex) :: rest, s)

/-- The material loop of parse_kn5. -/
def parseMaterials (version : Int) : Nat → List Nat →
    Except FormatError (List MatRec × List Nat)
  | 0, s => .ok ([], s)
  | k + 1, s => do
    let (name, s) ← read_string s
    let (shader, s) ← read_string s
    let s := s.drop 2
    let s := if 4 < version then s.drop 4 else s
    let (propCount, s) ← readI32 s
    let s ← parseProps propCount.toNat s
    let (sampCount, s) ← readI32 s
    let (samplers, s) ← parseSamplers sampCount.toNat s
    let (rest, s) ← parseMaterials version k s
    pure (⟨name, shader, samplers⟩ :: rest, s)

/-- parse_kn5: magic, version (plus one extra int32 when above 5),
texture section, material section, then the recursive node tree. -/
def parse_kn5 (s : List Nat) :
    Except FormatError (List (List Nat × List Nat) × List MatRec × List MeshRec) := do
  let (magic, s) ← readBytes 6 s
  if magic ≠ kn5Magic then .error (.badMagic magic)
  else do
    let (version, s) ← readI32 s
    let s := if 5 < version then s.drop 4 else s
    let (texCount, s) ← readI32 s
    let (textures, s) ← parseTextures texCount.toNat s
    let (matCount, s) ← readI32 s
    let (materials, s) ← parseMaterials version matCount.toNat s
    let (meshes, _) ← parse_node (s.length + 1) s []
    pure (textures, materials, meshes)

/-! ### KN5 writer (scripts/export_kn5.py) -/

/-- One vertex tuple of the exporter: position, normal, uv and tangent as
f32 bit patterns (export_kn5.py rounds the converted doubles to 6
decimals before they are packed; the values modelled here are the final
float32 patterns). -/
structure Vtx where
  pos : Nat × Nat × Nat
  normal : Nat × Nat × Nat
  uv : Nat × Nat
  tangent : Nat × Nat × Nat
deriving DecidableEq, Repr

/-- The 44 bytes of one vertex record: the 11 packed floats in file
order. -/
def writeVertex (v : Vtx) : List Nat :=
  [encF32 v.pos.1, encF32 v.pos.2.1, encF32 v.pos.2.2,
   encF32 v.normal.1, encF32 v.normal.2.1, encF32 v.normal.2.2,
   encF32 v.uv.1, encF32 v.uv.2,
   encF32 v.tangent.1, encF32 v.tangent.2.1, encF32 v.tangent.2.2].flatten

/-- The modelled-boundary well-formedness of a vertex tuple: the decoded
fields are genuine 32-bit patterns (the tangent is never decoded by the
reader, so it is unconstrained). -/
def VtxWf (v : Vtx) : Prop :=
  v.pos.1 < 2 ^ 32 ∧ v.pos.2.1 < 2 ^ 32 ∧ v.pos.2.2 < 2 ^ 32 ∧
  v.normal.1 < 2 ^ 32 ∧ v.normal.2.1 < 2 ^ 32 ∧ v.normal.2.2 < 2 ^ 32 ∧
  v.uv.1 < 2 ^ 32 ∧ v.uv.2 < 2 ^ 32

instance (v : Vtx) : Decidable (VtxWf v) := by
  unfold VtxWf
  infer_instance

/-- write_string of export_kn5.py: pack the byte length as int32, then
the raw utf-8 bytes. -/
def write_string (s : List Nat) : Option (List Nat) := do
  let lp ← encI32 (s.length : Int)
  pure (lp ++ s)

/-- The index loop of write_mesh_node: it steps through the list three
at a time packing each index as uint16, raising IndexError when the list
length is not a multiple of 3 and struct.error when an index exceeds
65535. -/
def encIndexTriples : List Nat → Option (List Nat)
  | [] => some []
  | a :: b :: c :: t => do
    pure ((← encU16 a) ++ (← encU16 b) ++ (← encU16 c) ++ (← encIndexTriples t))
  | _ => none

/-- write_mesh_node: type 2 header, name, no children, flag byte, the 3
mesh flags, vertex count and records, index count and 16-bit triples,
material id, and the 29-byte trailer (layer, two lod floats, bounding
sphere, renderable flag).  The bounding sphere is float arithmetic over
the vertex positions (mins, maxes and a square root); it is abstracted
as the function argument bsphere returning the four packed bit patterns,
which no claim observes. -/
def write_mesh_node (bsphere : List Vtx → Nat × Nat × Nat × Nat)
    (name : List Nat) (vertices : List Vtx) (indices : List Nat)
    (material_id : Int) : Option (List Nat) := do
  let t ← encI32 2
  let nm ← write_string name
  let zeroChildren ← encI32 0
  let flag ← encU8 1
  let vcount ← encI32 (vertices.length : Int)
  let vblock := (vertices.map writeVertex).flatten
  let icount ← encI32 (indices.length : Int)
  let iblock ← encIndexTriples indices
  let mid ← encI32 material_id
  let layer ← encI32 0
  let bsp := bsphere vertices
  pure (t ++ nm ++ zeroChildren ++ flag ++ [1, 1, 0] ++
    vcount ++ vblock ++ icount ++ iblock ++ mid ++ layer ++
    encF32 0 ++ encF32 0 ++
    encF32 bsp.1 ++ encF32 bsp.2.1 ++ encF32 bsp.2.2.1 ++ encF32 bsp.2.2.2 ++ [1])

/-- The byte stream a successful write_mesh_node call produces, spelled
out section by section (used to state the write/parse round trip). -/
def meshNodeBytes (bsphere : List Vtx → Nat × Nat × Nat × Nat)
    (name : List Nat) (vs : List Vtx) (idx : List Nat) (matId : Int) : List Nat :=
  encI32raw 2 ++ (encI32raw (name.length : Int) ++ name) ++ encI32raw 0 ++ [1] ++
  [1, 1, 0] ++ encI32raw (vs.length : Int) ++ (vs.map writeVertex).flatten ++
  encI32raw (idx.length : Int) ++ (idx.map encU16raw).flatten ++
  encI32raw matId ++ encI32raw 0 ++ encF32 0 ++ encF32 0 ++
  encF32 (bsphere vs).1 ++ encF32 (bsphere vs).2.1 ++ encF32 (bsphere vs).2.2.1 ++
  encF32 (bsphere vs).2.2.2 ++ [1]

/-- A 4 by 4 matrix of f32 bit patterns, indexed row then column. -/
def Mat4 : Type := Nat → Nat → Nat

/-- The 64 bytes of a row-major matrix write. -/
def matrixBytes (m : Mat4) : List Nat :=
  ((List.range 4).map (fun r => ((List.range 4).map (fun c => encF32 (m r c))).flatten)).flatten

/-- write_dummy_node: type 1 header, name, declared child count, flag
byte, then the 16 floats of the matrix.  The children themselves are
written by the caller immediately afterwards. -/
def write_dummy_node (name : List Nat) (matrix : Mat4)
    (children_count : Int) : Option (List Nat) := do
  let t ← encI32 1
  let nm ← write_string name
  let cc ← encI32 children_count
  let flag ← encU8 1
  pure (t ++ nm ++ cc ++ flag ++ matrixBytes matrix)

/-! ### Vertex deduplication (export_kn5.py, get_mesh_data)

The Blender accessor calls of get_mesh_data (evaluated mesh,
triangulation, world transform, corner normals, uv flip, rounding to 6
decimals) produce one (pos, normal, uv, tangent) tuple per face corner;
the dedup loop over those corners is modelled here, taking the corner
tuples (as final f32 bit patterns) as input. -/

/-- The type of dedup keys. -/
abbrev VKeyT : Type := (Nat × Nat × Nat) × (Nat × Nat × Nat) × (Nat × Nat)

/-- The dedup key: tangent is deliberately not part of it. -/
def vkey (v : Vtx) : VKeyT := (v.pos, v.normal, v.uv)

/-- One iteration of the corner loop: look the key up in vert_map,
append the existing index or a fresh vertex.  The state is (vertices,
indices, vert_map as an association list with the newest binding in
front). -/
def dedupStep (st : List Vtx × List Nat × List (VKeyT × Nat)) (c : Vtx) :
    List Vtx × List Nat × List (VKeyT × Nat) :=
  match st.2.2.lookup (vkey c) with
  | some i => (st.1, st.2.1 ++ [i], st.2.2)
  | none => (st.1 ++ [c], st.2.1 ++ [st.1.length], (vkey c, st.1.length) :: st.2.2)

/-- get_mesh_data: fold the dedup step over all corners and return the
deduplicated vertex list and the index list. -/
def get_mesh_data (corners : List Vtx) : List Vtx × List Nat :=
  let st := corners.foldl dedupStep ([], [], [])
  (st.1, st.2.1)

/-- The uint16-limit check at the end of get_mesh_data: a printed
warning, modelled as a boolean. -/
def capacity_warning (corners : List Vtx) : Bool :=
  65535 < (get_mesh_data corners).1.length

/-- A family of corner tuples with pairwise distinct dedup keys. -/
def bigCorner (i : Nat) : Vtx := ⟨(i, 0, 0), (0, 0, 0), (0, 0), (0, 0, 0)⟩

/-- 65538 pairwise distinct corners: enough to overflow the 16-bit index
range while keeping the corner count a multiple of 3 (a triangulated
mesh always hands the writer 3 corners per face). -/
def bigCorners : List Vtx := (List.range 65538).map bigCorner

/-- The vert_map contents after deduplicating the first n distinct
corners. -/
def dedupMapN (n : Nat) : List (VKeyT × Nat) :=
  ((List.range n).map (fun i => (vkey (bigCorner i), i))).reverse

/-! ### Marker boxes and matrices (export_kn5.py) -/

/-- IEEE-754 single-precision bit patterns of the constants appearing in
make_box_mesh and the identity matrix. -/
def f32one : Nat := 0x3F800000

def f32negOne : Nat := 0xBF800000

def f32quarter : Nat := 0x3E800000

def f32negQuarter : Nat := 0xBE800000

/-- The faces_data table of make_box_mesh, with hp and hn the patterns of
the positive and negative half-extent: (normal, tangent, v0, v1, v2, v3)
per face. -/
def boxFaces (hp hn : Nat) :
    List ((Nat × Nat × Nat) × (Nat × Nat × Nat) × (Nat × Nat × Nat) × (Nat × Nat × Nat) × (Nat × Nat × Nat) × (Nat × Nat × Nat)) :=
  [((0, f32one, 0), (f32one, 0, 0), (hn, hp, hn), (hp, hp, hn), (hp, hp, hp), (hn, hp, hp)),
   ((0, f32negOne, 0), (f32one, 0, 0), (hn, hn, hp), (hp, hn, hp), (hp, hn, hn), (hn, hn, hn)),
   ((f32one, 0, 0), (0, 0, f32one), (hp, hn, hn), (hp, hn, hp), (hp, hp, hp), (hp, hp, hn)),
   ((f32negOne, 0, 0), (0, 0, f32negOne), (hn, hn, hp), (hn, hn, hn), (hn, hp, hn), (hn, hp, hp)),
   ((0, 0, f32one), (f32one, 0, 0), (hn, hn, hp), (hp, hn, hp), (hp, hp, hp), (hn, hp, hp)),
   ((0, 0, f32negOne), (f32negOne, 0, 0), (hp, hn, hn), (hn, hn, hn), (hn, hp, hn), (hp, hp, hn))]

/-- make_box_mesh: 4 vertices per face paired with the fixed uv corners,
and 6 indices per face (two triangles off the face base). -/
def make_box_mesh (hp hn : Nat) : List Vtx × List Nat :=
  (boxFaces hp hn).foldl (fun (acc : List Vtx × List Nat) fd =>
    let base := acc.1.length
    (acc.1 ++
      [⟨fd.2.2.1, fd.1, (0, 0), fd.2.1⟩,
       ⟨fd.2.2.2.1, fd.1, (f32one, 0), fd.2.1⟩,
       ⟨fd.2.2.2.2.1, fd.1, (f32one, f32one), fd.2.1⟩,
       ⟨fd.2.2.2.2.2, fd.1, (0, f32one), fd.2.1⟩],
     acc.2 ++ [base, base + 1, base + 2, base, base + 2, base + 3])) ([], [])

/-- The box written beneath every marker dummy (half-extent 0.25). -/
def box_verts : List Vtx := (make_box_mesh f32quarter f32negQuarter).1

def box_indices : List Nat := (make_box_mesh f32quarter f32negQuarter).2

/-- identity_matrix of export_kn5.py (the integer entries pack to the
float32 patterns of 1.0 and 0.0). -/
def identity_matrix : Mat4 := fun r c => if r = c then f32one else 0

/-- Negation of a float32 at the bit-pattern level (the sign bit flips;
IEEE rounding commutes with negation, so negating the double before
packing equals flipping the packed sign bit). -/
def negF32 (x : Nat) : Nat := (x % 2 ^ 32 + 2 ^ 31) % 2 ^ 32

/-- obj_to_matrix: change of basis (row 0, row 2, negated row 1, row 3)
followed by a transpose for the row-major DirectX storage. -/
def obj_to_matrix (m : Mat4) : Mat4 := fun r c =>
  match c with
  | 0 => m 0 r
  | 1 => m 2 r
  | 2 => negF32 (m 1 r)
  | _ => m 3 r

/-! ### The node section of main (export_kn5.py, lines 434-468) -/

/-- One mesh object as main sees it: name bytes, the corner tuples its
accessor calls produce, and the material id resolved by
get_material_id. -/
structure MeshObj where
  name : List Nat
  corners : List Vtx
  matId : Int

/-- One empty (marker) object: name bytes and the Blender world matrix
as f32 bit patterns. -/
structure MarkerObj where
  name : List Nat
  world : Mat4

/-- The utf-8 bytes of the root node name pista_caudina. -/
def root_name : List Nat := [112, 105, 115, 116, 97, 95, 99, 97, 117, 100, 105, 110, 97]

/-- The mesh-children loop of main: write_mesh_node per mesh object on
its deduplicated data, in order. -/
def writeMeshObjs (bsphere : List Vtx → Nat × Nat × Nat × Nat) :
    List MeshObj → Option (List Nat)
  | [] => some []
  | o :: t => do
    let md := get_mesh_data o.corners
    pure ((← write_mesh_node bsphere o.name md.1 md.2 o.matId) ++
      (← writeMeshObjs bsphere t))

/-- The empties loop of main: per marker a dummy node declaring exactly
one child, immediately followed by the box mesh node with material 0. -/
def writeMarkerObjs (bsphere : List Vtx → Nat × Nat × Nat × Nat) :
    List MarkerObj → Option (List Nat)
  | [] => some []
  | e :: t => do
    pure ((← write_dummy_node e.name (obj_to_matrix e.world) 1) ++
      (← write_mesh_node bsphere e.name box_verts box_indices 0) ++
      (← writeMarkerObjs bsphere t))

/-- The node tree section exactly as main emits it: one root dummy
declaring (mesh count + marker count) children, then every mesh node,
then every marker dummy and box pair. -/
def mainNodeSection (bsphere : List Vtx → Nat × Nat × Nat × Nat)
    (ms : List MeshObj) (es : List MarkerObj) : Option (List Nat) := do
  pure ((← write_dummy_node root_name identity_matrix ((ms.length : Int) + (es.length : Int))) ++
    (← writeMeshObjs bsphere ms) ++ (← writeMarkerObjs bsphere es))

/-! ### Structured node trees

A node tree whose serialization writes, for every dummy node, a declared
child count equal to the length of its actual child list, followed by
exactly the serializations of those children; mesh nodes always declare
0 children.  Matching the flat emission of main against this serializer
establishes the child-count invariant. -/

inductive KNode where
  | dummy (name : List Nat) (matrix : Mat4) (children : List KNode) : KNode
  | mesh (name : List Nat) (verts : List Vtx) (indices : List Nat) (matId : Int) : KNode

mutual

/-- Serialize one node; a dummy declares exactly the length of its child
list and is followed by exactly its children. -/
def serializeNode (bsphere : List Vtx → Nat × Nat × Nat × Nat) :
    KNode → Option (List Nat)
  | .mesh n v i m => write_mesh_node bsphere n v i m
  | .dummy n mat cs => do
    pure ((← write_dummy_node n mat (cs.length : Int)) ++ (← serializeKids bsphere cs))

/-- Serialize a child list in order. -/
def serializeKids (bsphere : List Vtx → Nat × Nat × Nat × Nat) :
    List KNode → Option (List Nat)
  | [] => some []
  | c :: t => do
    pure ((← serializeNode bsphere c) ++ (← serializeKids bsphere t))

end

/-- The declared child count of the root of a structured tree. -/
def nodeChildDecl : KNode → Nat
  | .dummy _ _ cs => cs.length
  | .mesh _ _ _ _ => 0

/-- The node tree main is claimed to emit: root dummy over all mesh
nodes followed by all marker dummy-plus-box pairs. -/
def mkTree (ms : List MeshObj) (es : List MarkerObj) : KNode :=
  .dummy root_name identity_matrix
    (ms.map (fun o => KNode.mesh o.name (get_mesh_data o.corners).1
        (get_mesh_data o.corners).2 o.matId) ++
     es.map (fun e => KNode.dummy e.name (obj_to_matrix e.world)
        [KNode.mesh e.name box_verts box_indices 0]))

/-- A concrete road-mesh input used to evaluate the extraction pipeline:
two boundary triangles (vertices 0-1-2 and 3-4-5) plus one isolated
boundary edge 6-7 whose walk records fewer than 3 vertices. -/
def demoMesh : RoadMesh :=
  { boundaryEdges := [⟨0, 0, 1⟩, ⟨1, 1, 2⟩, ⟨2, 2, 0⟩, ⟨3, 3, 4⟩, ⟨4, 4, 5⟩, ⟨5, 5, 3⟩,
      ⟨6, 6, 7⟩]
    link := fun v =>
      match v with
      | 0 => [⟨0, 0, 1⟩, ⟨2, 2, 0⟩]
      | 1 => [⟨0, 0, 1⟩, ⟨1, 1, 2⟩]
      | 2 => [⟨1, 1, 2⟩, ⟨2, 2, 0⟩]
      | 3 => [⟨3, 3, 4⟩, ⟨5, 5, 3⟩]
      | 4 => [⟨3, 3, 4⟩, ⟨4, 4, 5⟩]
      | 5 => [⟨4, 4, 5⟩, ⟨5, 5, 3⟩]
      | 6 => [⟨6, 6, 7⟩]
      | 7 => [⟨6, 6, 7⟩]
      | _ => []
    coord := fun v => ((v : ℚ), ((v * v : Nat) : ℚ), 0) }

/-- A road mesh with three boundary triangles, hence three boundary
loops. -/
def demo3Mesh : RoadMesh :=
  { boundaryEdges := [⟨0, 0, 1⟩, ⟨1, 1, 2⟩, ⟨2, 2, 0⟩, ⟨3, 3, 4⟩, ⟨4, 4, 5⟩, ⟨5, 5, 3⟩,
      ⟨6, 6, 7⟩, ⟨7, 7, 8⟩, ⟨8, 8, 6⟩]
    link := fun v =>
      match v with
      | 0 => [⟨0, 0, 1⟩, ⟨2, 2, 0⟩]
      | 1 => [⟨0, 0, 1⟩, ⟨1, 1, 2⟩]
      | 2 => [⟨1, 1, 2⟩, ⟨2, 2, 0⟩]
      | 3 => [⟨3, 3, 4⟩, ⟨5, 5, 3⟩]
      | 4 => [⟨3, 3, 4⟩, ⟨4, 4, 5⟩]
      | 5 => [⟨4, 4, 5⟩, ⟨5, 5, 3⟩]
      | 6 => [⟨6, 6, 7⟩, ⟨8, 8, 6⟩]
      | 7 => [⟨6, 6, 7⟩, ⟨7, 7, 8⟩]
      | 8 => [⟨7, 7, 8⟩, ⟨8, 8, 6⟩]
      | _ => []
    coord := fun v => ((v : ℚ), ((v * v : Nat) : ℚ), 0) }

/-! ## Monad unfolding helpers -/

theorem except_bind_ok {ε α β : Type} (a : α) (f : α → Except ε β) :
    (Except.ok a >>= f) = f a := rfl

theorem except_bind_error {ε α β : Type} (e : ε) (f : α → Except ε β) :
    ((Except.error e : Except ε α) >>= f) = .error e := rfl

theorem option_bind_some {α β : Type} (a : α) (f : α → Option β) :
    (some a >>= f) = f a := rfl

theorem option_bind_none {α β : Type} (f : α → Option β) :
    ((none : Option α) >>= f) = none := rfl

/-! ## Signed area lemmas -/

theorem signedArea2_append_single (l : List (ℚ × ℚ)) (a : ℚ × ℚ) :
    signedArea2 (l ++ [a]) = signedArea2 l +
      (match l.getLast? with | some b => cross2 b a | none => 0) := by
  induction l with
  | nil => simp [signedArea2]
  | cons x t ih =>
    cases t with
    | nil => simp [signedArea2]
    | cons y t2 =>
      simp only [List.cons_append] at *
      rw [show signedArea2 (x :: y :: (t2 ++ [a])) =
            cross2 x y + signedArea2 (y :: (t2 ++ [a])) from rfl,
          show signedArea2 (x :: y :: t2) = cross2 x y + signedArea2 (y :: t2) from rfl,
          List.getLast?_cons_cons, ih]
      ring

theorem signedArea2_reverse (l : List (ℚ × ℚ)) :
    signedArea2 l.reverse = -signedArea2 l := by
  induction l with
  | nil => simp [signedArea2]
  | cons p t ih =>
    rw [List.reverse_cons, signedArea2_append_single, ih, List.getLast?_reverse]
    cases t with
    | nil => simp [signedArea2]
    | cons q t2 =>
      rw [show signedArea2 (p :: q :: t2) = cross2 p q + signedArea2 (q :: t2) from rfl]
      show -signedArea2 (q :: t2) + cross2 q p = -(cross2 p q + signedArea2 (q :: t2))
      unfold cross2
      ring

theorem signedAreaPts_reverse (l : List Pt3) :
    signedAreaPts l.reverse = -signedAreaPts l := by
  unfold signedAreaPts proj2
  rw [List.map_reverse, signedArea2_reverse]

/-- The direction-normalization step always lands at nonpositive signed
area, whatever the centerline was. -/
theorem area_norm_nonpos (mid : List Pt3) :
    signedAreaPts (if 0 < signedAreaPts mid then mid.reverse else mid) ≤ 0 := by
  split
  · rw [signedAreaPts_reverse]; linarith
  · linarith [not_lt.mp (by assumption : ¬ 0 < signedAreaPts mid)]

theorem centerline_area_nonpos (la lb : List Pt3) :
    signedAreaPts (centerlineFromLoops la lb) ≤ 0 := by
  unfold centerlineFromLoops
  exact area_norm_nonpos _

/-- C2: for every road mesh input whose extraction succeeds, the
returned centerline has nonpositive 2d signed area: the racing line runs
clockwise or is degenerate. -/
theorem extract_centerline_area_nonpos (g : RoadMesh) (c : List Pt3)
    (h : extract_centerline g = .ok c) : signedAreaPts c ≤ 0 := by
  unfold extract_centerline chain_boundary_loops at h
  split at h
  · rw [except_bind_error] at h
    exact absurd h (by simp)
  · rw [except_bind_ok] at h
    split at h
    · simp only [pure, Except.pure, Except.ok.injEq] at h
      subst h
      exact centerline_area_nonpos _ _
    · exact absurd h (by simp)

/-- Witness for the C2 theorem at a concrete road mesh. -/
theorem extract_centerline_area_nonpos_witness :
    signedAreaPts ((extract_centerline demoMesh).toOption.getD []) ≤ 0 :=
  extract_centerline_area_nonpos demoMesh _ (by rfl)

/-! ## C3: speed bounds before smoothing -/

theorem clip01_nonneg (x : ℚ) : 0 ≤ clip01 x :=
  le_min (by norm_num) (le_max_right x 0)

theorem clip01_le_one (x : ℚ) : clip01 x ≤ 1 := min_le_left 1 _

/-- The float model and the rational idealization agree whenever the
normalization divisor is nonzero: every value is then an ordinary
number. -/
theorem speedsPreSmoothF_agrees (defaultSpeed minCornerSpeed : ℚ) (curvature : List ℚ)
    (hdiv : speedsDivisor curvature ≠ 0) :
    speedsPreSmoothF defaultSpeed minCornerSpeed curvature =
      (speedsPreSmooth defaultSpeed minCornerSpeed curvature).map FQ.num := by
  unfold speedsPreSmoothF speedsPreSmooth
  rw [List.map_map]
  refine List.map_congr_left (fun c _ => ?_)
  unfold fdivQ
  rw [if_pos hdiv]
  rfl

set_option maxRecDepth 8000 in
/-- C3 counterexample: with 20 zero-curvature samples and one positive
one (a nonempty nonnegative array), at least 95 percent of the samples
are zero, so the 95th-percentile divisor is 0 while the maximum
curvature is positive.  The zero entries then divide 0 / 0 to NaN, which
np.clip propagates, so with the default speeds 80 and 40 the
pre-smoothing speed array contains NaN and its values do not all lie in
the interval [40, 80]. -/
theorem speeds_nan_escape :
    (speedsPreSmoothF 80 40 (List.replicate 20 0 ++ [1])).all (fqInBounds 40 80) = false ∧
      FQ.nan ∈ speedsPreSmoothF 80 40 (List.replicate 20 0 ++ [1]) :=
  ⟨by decide, by decide⟩

/-- C3 as amended: for every nonempty curvature array of nonnegative
values whose normalization divisor is nonzero — that is, whenever the
maximum curvature is positive its 95th percentile is positive too —
every speed produced before the smoothing convolution is an ordinary
number in the closed interval from the minimum corner speed to the
default speed (the configured speeds satisfying min at most max).  When
the 95th percentile is 0 with a positive maximum, the program divides by
0.0 instead and NaN speeds escape every interval. -/
theorem speedsPreSmoothF_bounds (defaultSpeed minCornerSpeed : ℚ) (curvature : List ℚ)
    (_hne : curvature ≠ []) (_hnn : ∀ c ∈ curvature, 0 ≤ c)
    (hMD : minCornerSpeed ≤ defaultSpeed)
    (hdiv : 0 < maxListQ curvature → 0 < percentile95 curvature) :
    ∀ s ∈ speedsPreSmoothF defaultSpeed minCornerSpeed curvature,
      ∃ q, s = .num q ∧ minCornerSpeed ≤ q ∧ q ≤ defaultSpeed := by
  intro s hs
  unfold speedsPreSmoothF at hs
  simp only [List.mem_map] at hs
  obtain ⟨c, _, rfl⟩ := hs
  have hd : speedsDivisor curvature ≠ 0 := by
    unfold speedsDivisor
    by_cases hmx : 0 < maxListQ curvature
    · rw [if_pos hmx]
      exact ne_of_gt (hdiv hmx)
    · rw [if_neg hmx]
      norm_num
  unfold fdivQ
  rw [if_pos hd]
  have h0 := clip01_nonneg (c / speedsDivisor curvature)
  have h1 := clip01_le_one (c / speedsDivisor curvature)
  refine ⟨_, rfl, ?_, ?_⟩
  · have := mul_le_mul_of_nonneg_right h1 (by linarith : (0 : ℚ) ≤ defaultSpeed - minCornerSpeed)
    linarith
  · have := mul_nonneg h0 (by linarith : (0 : ℚ) ≤ defaultSpeed - minCornerSpeed)
    linarith

/-- Witness for the amended C3 theorem on a concrete curvature array
whose divisor is nonzero. -/
theorem speedsPreSmoothF_bounds_witness :
    ∃ q, (speedsPreSmoothF 80 40 [0, 1]).headD .nan = .num q ∧ 40 ≤ q ∧ q ≤ 80 :=
  speedsPreSmoothF_bounds 80 40 [0, 1] (by decide)
    (by intro c hc; fin_cases hc <;> norm_num) (by norm_num) (by decide) _ (by decide)

/-! ## C4: loop count different from 2 aborts before any output -/

/-- C4: whenever boundary-edge chaining yields a loop count different
from 2 (the no-boundary-edges exit aside, which aborts even earlier with
its own message), the racing-line stage fails with the topology error
carrying the observed loop count, and no output file value exists: the
error short-circuits before write_ai_file, whose os.makedirs call is the
first thing that would touch the output path. -/
theorem topology_error_aborts (sq : ℚ → ℚ) (startPos : Option (ℚ × ℚ))
    (defaultSpeed minCornerSpeed : ℚ) (g : RoadMesh)
    (hne : g.boundaryEdges ≠ []) (h2 : (chainLoops g).length ≠ 2) :
    generate_main sq startPos defaultSpeed minCornerSpeed g =
      .error (.topologyError (chainLoops g).length) := by
  unfold generate_main extract_centerline chain_boundary_loops
  rw [if_neg hne, except_bind_ok, if_neg h2, except_bind_error]

/-- Witness for the C4 theorem: a road mesh with three boundary loops
(three disjoint triangles) yields the topology error reporting 3. -/
theorem topology_error_aborts_witness :
    generate_main (fun x => x) none 80 40 demo3Mesh = .error (.topologyError 3) := by
  have h := topology_error_aborts (fun x => x) none 80 40 demo3Mesh (by decide) (by decide)
  rw [h]
  rfl

/-! ## C10: short chained walks are silently discarded -/

theorem chainStep_preserves (g : RoadMesh) (st : List (List Pt3) × List BEdge)
    (se : BEdge) (hst : ∀ l ∈ st.1, 2 < l.length) :
    ∀ l ∈ (chainStep g st se).1, 2 < l.length := by
  unfold chainStep
  split
  · exact hst
  · dsimp only
    split
    · intro l hl
      rcases List.mem_append.mp hl with h | h
      · exact hst l h
      · rw [List.mem_singleton.mp h]
        assumption
    · exact hst

theorem chainFold_preserves (g : RoadMesh) (es : List BEdge)
    (st : List (List Pt3) × List BEdge) (hst : ∀ l ∈ st.1, 2 < l.length) :
    ∀ l ∈ (es.foldl (chainStep g) st).1, 2 < l.length := by
  induction es generalizing st with
  | nil => exact hst
  | cons e t ih =>
    rw [List.foldl_cons]
    exact ih _ (chainStep_preserves g st e hst)

/-- C10: every loop returned by the boundary-edge chaining has more than
2 recorded vertices — a chained walk that records fewer vertices is
dropped without an error or warning and does not count toward the
two-boundary-loops check.  The second conjunct exhibits this on the
concrete demoMesh, whose third boundary walk (the isolated edge 6-7)
records fewer than 3 vertices: only 2 loops come back out of 7 boundary
edges, and extraction succeeds without any error. -/
theorem chainLoops_min_length :
    (∀ (g : RoadMesh), ∀ l ∈ chainLoops g, 2 < l.length) ∧
      (chainLoops demoMesh).length = 2 ∧
      demoMesh.boundaryEdges.length = 7 ∧
      (extract_centerline demoMesh).isOk = true := by
  refine ⟨fun g => chainFold_preserves g _ _ (by simp), by decide, by decide, by rfl⟩

/-- Witness for the C10 theorem: the membership hypothesis discharged at
the first loop of the demo mesh. -/
theorem chainLoops_min_length_witness :
    2 < ((chainLoops demoMesh).headD []).length :=
  chainLoops_min_length.1 demoMesh _ (by decide)

/-! ## C8: cumulative distances -/

theorem map_getD_range {α : Type} (l : List α) (d : α) :
    (List.range l.length).map (fun i => l.getD i d) = l := by
  apply List.ext_getElem (by simp)
  intro i h1 h2
  simp only [List.getElem_map, List.getElem_range, List.getD_eq_getElem?_getD,
    List.getElem?_eq_getElem h2, Option.getD_some]

theorem getD_map_range {α : Type} (f : Nat → α) (n i : Nat) (h : i < n) (d : α) :
    ((List.range n).map f).getD i d = f i := by
  rw [List.getD_eq_getElem?_getD, List.getElem?_map, List.getElem?_range h]
  rfl

theorem scanl_head_add (l : List ℚ) (a : ℚ) : (l.scanl (· + ·) a).head? = some a := by
  cases l <;> rfl

theorem chain_le_scanl (l : List ℚ) (hl : ∀ x ∈ l, 0 ≤ x) (a : ℚ) :
    List.Chain' (· ≤ ·) (l.scanl (· + ·) a) := by
  induction l generalizing a with
  | nil => simp [List.scanl]
  | cons x t ih =>
    rw [show (x :: t).scanl (· + ·) a = a :: t.scanl (· + ·) (a + x) from rfl,
      List.chain'_cons']
    refine ⟨fun y hy => ?_, ih (fun y hy => hl y (List.mem_cons_of_mem x hy)) (a + x)⟩
    rw [scanl_head_add] at hy
    have hx : 0 ≤ x := hl x (List.mem_cons_self x t)
    simp only [Option.mem_def, Option.some.injEq] at hy
    linarith [hy]

theorem getLast_scanl_add (l : List ℚ) (a : ℚ) :
    (l.scanl (· + ·) a).getLast? = some (a + l.sum) := by
  induction l generalizing a with
  | nil => simp [List.scanl]
  | cons x t ih =>
    rw [show (x :: t).scanl (· + ·) a = a :: t.scanl (· + ·) (a + x) from rfl]
    cases t with
    | nil => simp [List.scanl]
    | cons y t2 =>
      rw [show (y :: t2).scanl (· + ·) (a + x) =
            (a + x) :: t2.scanl (· + ·) ((a + x) + y) from rfl,
        List.getLast?_cons_cons,
        show ((a + x) :: t2.scanl (· + ·) ((a + x) + y)) =
            (y :: t2).scanl (· + ·) (a + x) from rfl,
        ih]
      congr 1
      simp only [List.sum_cons]
      ring

/-- The cumulative-distance column of the written points. -/
theorem write_ai_points_cum (sq : ℚ → ℚ) (startPos : Option (ℚ × ℚ))
    (defaultSpeed minCornerSpeed : ℚ) (centerline : List Pt3) :
    (write_ai_file sq startPos defaultSpeed minCornerSpeed centerline).points.map
        (fun p => p.2.1) =
      (List.range (rolledCenterline startPos centerline).length).map
        (fun i => (cumDistArray sq
          ((rolledCenterline startPos centerline).map acConvert)).getD i 0) := by
  simp only [write_ai_file, List.map_map]
  rfl

/-- C8: the cumulative-distance array written to the racing-line file
starts at 0, never decreases, and ends at the sum of all consecutive
point-to-point distances of the engine-axis point sequence (distances
formed by any nonnegative-valued stand-in sq for the euclidean norm of
the squared segment). -/
theorem cumdist_props (sq : ℚ → ℚ) (startPos : Option (ℚ × ℚ))
    (defaultSpeed minCornerSpeed : ℚ) (centerline : List Pt3)
    (hne : centerline ≠ []) (hsq : ∀ x, 0 ≤ sq x) :
    ((write_ai_file sq startPos defaultSpeed minCornerSpeed centerline).points.map
        (fun p => p.2.1)).head? = some 0 ∧
      List.Chain' (· ≤ ·)
        ((write_ai_file sq startPos defaultSpeed minCornerSpeed centerline).points.map
          (fun p => p.2.1)) ∧
      ((write_ai_file sq startPos defaultSpeed minCornerSpeed centerline).points.map
        (fun p => p.2.1)).getLast? =
        some (segLengths sq
          ((rolledCenterline startPos centerline).map acConvert)).sum := by
  rw [write_ai_points_cum]
  set cb := rolledCenterline startPos centerline with hcbdef
  have hn : cb.length = centerline.length := by
    rw [hcbdef]
    unfold rolledCenterline
    exact List.length_rotate _ _
  have hpos : 0 < cb.length := hn ▸ List.length_pos.mpr hne
  have hacp : (cb.map acConvert).length = cb.length := List.length_map _ _
  have hseg : (segLengths sq (cb.map acConvert)).length = cb.length - 1 := by
    unfold segLengths
    rw [List.length_map, List.length_zip, List.length_tail, hacp,
      min_eq_right (Nat.sub_le _ _)]
  have hcum : cumDistArray sq (cb.map acConvert) =
      (segLengths sq (cb.map acConvert)).scanl (· + ·) 0 := by
    unfold cumDistArray
    apply List.take_of_length_le
    rw [List.length_scanl, hseg, hacp]
    omega
  have hlen : (cumDistArray sq (cb.map acConvert)).length = cb.length := by
    rw [hcum, List.length_scanl, hseg]
    omega
  rw [← hlen, map_getD_range, hcum]
  refine ⟨scanl_head_add _ _, chain_le_scanl _ ?_ 0, ?_⟩
  · intro x hx
    unfold segLengths at hx
    obtain ⟨pq, _, rfl⟩ := List.mem_map.mp hx
    exact hsq _
  · rw [getLast_scanl_add, zero_add]

/-- Witness for the C8 theorem on a concrete centerline. -/
theorem cumdist_props_witness :
    (((write_ai_file (fun x => |x|) none 80 40 [(0, 0, 0), (1, 0, 0), (1, 1, 0)]).points.map
        (fun p => p.2.1)).head? = some 0 ∧
      List.Chain' (· ≤ ·)
        ((write_ai_file (fun x => |x|) none 80 40 [(0, 0, 0), (1, 0, 0), (1, 1, 0)]).points.map
          (fun p => p.2.1)) ∧
      ((write_ai_file (fun x => |x|) none 80 40 [(0, 0, 0), (1, 0, 0), (1, 1, 0)]).points.map
        (fun p => p.2.1)).getLast? =
        some (segLengths (fun x => |x|)
          ((rolledCenterline none [(0, 0, 0), (1, 0, 0), (1, 1, 0)]).map acConvert)).sum) :=
  cumdist_props (fun x => |x|) none 80 40 [(0, 0, 0), (1, 0, 0), (1, 1, 0)]
    (by decide) (fun x => abs_nonneg x)

/-! ## C9: speeds are written divided by 3.6 -/

/-- C9: every value of the speed section equals the corresponding
smoothed speed divided by 3.6 (= 18/5): the configured speeds are
interpreted in km/h while the file stores m/s. -/
theorem speed_section_kmh_to_ms (sq : ℚ → ℚ) (startPos : Option (ℚ × ℚ))
    (defaultSpeed minCornerSpeed : ℚ) (centerline : List Pt3) (i : Nat)
    (hi : i < (rolledCenterline startPos centerline).length) :
    (write_ai_file sq startPos defaultSpeed minCornerSpeed centerline).speedSection.getD i 0 =
      (compute_speeds defaultSpeed minCornerSpeed
        (compute_curvature sq (proj2 (rolledCenterline startPos centerline)))).getD i 0 /
        (18 / 5) := by
  simp only [write_ai_file]
  rw [getD_map_range _ _ _ hi]

/-- Witness for the C9 theorem at a concrete centerline and index. -/
theorem speed_section_kmh_to_ms_witness :
    (write_ai_file (fun x => x) none 80 40 [(0, 0, 0), (1, 0, 0), (0, 1, 0)]).speedSection.getD 0 0 =
      (compute_speeds 80 40
        (compute_curvature (fun x => x)
          (proj2 (rolledCenterline none [(0, 0, 0), (1, 0, 0), (0, 1, 0)])))).getD 0 0 /
        (18 / 5) :=
  speed_section_kmh_to_ms (fun x => x) none 80 40 [(0, 0, 0), (1, 0, 0), (0, 1, 0)] 0
    (by decide)

/-! ## Binary primitive round trips -/

theorem encN32_length (m : Nat) : (encN32 m).length = 4 := rfl

theorem encI32raw_length (n : Int) : (encI32raw n).length = 4 := rfl

theorem decN32_encN32 (m : Nat) (h : m < 2 ^ 32) : decN32 (encN32 m) = m := by
  show m % 256 + 256 * (m / 256 % 256) + 65536 * (m / 65536 % 256) +
    16777216 * (m / 16777216 % 256) = m
  omega

theorem readBytes_exact (bs rest : List Nat) (n : Nat) (h : bs.length = n) :
    readBytes n (bs ++ rest) = .ok (bs, rest) := by
  unfold readBytes
  rw [if_pos (by rw [List.length_append]; omega), List.take_left' h, List.drop_left' h]

theorem decI32_enc (n : Int) (h1 : -(2 ^ 31) ≤ n) (h2 : n < 2 ^ 31) :
    decI32 (encI32raw n) = n := by
  unfold decI32 encI32raw
  rw [decN32_encN32 _ (by omega)]
  split <;> omega

theorem readI32_enc (n : Int) (rest : List Nat) (h1 : -(2 ^ 31) ≤ n) (h2 : n < 2 ^ 31) :
    readI32 (encI32raw n ++ rest) = .ok (n, rest) := by
  unfold readI32
  rw [readBytes_exact _ _ _ (encI32raw_length _), except_bind_ok]
  dsimp only
  rw [decI32_enc n h1 h2]
  rfl

theorem read_string_enc (s rest : List Nat) (h : s.length ≤ 10000) :
    read_string (encI32raw (s.length : Int) ++ (s ++ rest)) = .ok (s, rest) := by
  unfold read_string
  rw [readBytes_exact _ _ _ (encI32raw_length _), except_bind_ok]
  dsimp only
  rw [decI32_enc _ (by omega) (by omega), if_neg (by omega)]
  show Except.ok ((s ++ rest).take (Int.toNat s.length), (s ++ rest).drop (Int.toNat s.length)) = _
  rw [Int.toNat_natCast, List.take_left' rfl, List.drop_left' rfl]

/-! ## C5: string length bounds -/

/-- C5 counterexample: reading a string whose declared length is 10001
does not return an empty string — the primitive fails — and the failure
aborts the whole parse: a file that is well-formed up to a texture name
with declared length 10001 makes parse_kn5 itself return the error
rather than recovering with an empty string. -/
theorem read_string_rejects_not_returns :
    (read_string (encI32raw 10001)).isOk = false ∧
      parse_kn5 (kn5Magic ++ encI32raw 6 ++ [0, 0, 0, 0] ++ encI32raw 1 ++
        encI32raw 1 ++ encI32raw 10001) = .error (.badStringLength 10001) := by
  exact ⟨by rfl, by rfl⟩

/-- C5 as amended: a declared length below 0 or above 10000 makes
read_string raise the format error carrying that length (aborting the
enclosing parse, since no caller catches it), while a declared length
within [0, 10000] returns the payload bytes (short reads at end of file
return what is available, as Python f.read does). -/
theorem read_string_bounds (n : Int) (rest : List Nat)
    (h1 : -(2 ^ 31) ≤ n) (h2 : n < 2 ^ 31) :
    ((n < 0 ∨ 10000 < n) →
      read_string (encI32raw n ++ rest) = .error (.badStringLength n)) ∧
      (0 ≤ n → n ≤ 10000 →
        read_string (encI32raw n ++ rest) = .ok (rest.take n.toNat, rest.drop n.toNat)) := by
  constructor
  · intro h
    unfold read_string
    rw [readBytes_exact _ _ _ (encI32raw_length _), except_bind_ok]
    dsimp only
    rw [decI32_enc n h1 h2, if_pos h]
  · intro h3 h4
    unfold read_string
    rw [readBytes_exact _ _ _ (encI32raw_length _), except_bind_ok]
    dsimp only
    rw [decI32_enc n h1 h2, if_neg (by omega)]
    rfl

/-- Witness for the amended C5 theorem, at an out-of-bounds and an
in-bounds declared length. -/
theorem read_string_bounds_witness :
    read_string (encI32raw 10001 ++ [7, 8]) = .error (.badStringLength 10001) ∧
      read_string (encI32raw 2 ++ [7, 8, 9]) = .ok ([7, 8], [9]) :=
  ⟨(read_string_bounds 10001 [7, 8] (by decide) (by decide)).1 (by decide),
   (read_string_bounds 2 [7, 8, 9] (by decide) (by decide)).2 (by decide) (by decide)⟩

/-! ## Vertex record and index round trips -/

theorem encF32_length (b : Nat) : (encF32 b).length = 4 := rfl

theorem decN32_encF32 (b : Nat) (h : b < 2 ^ 32) : decN32 (encF32 b) = b := by
  unfold encF32
  rw [decN32_encN32 _ (Nat.mod_lt _ (by norm_num)), Nat.mod_eq_of_lt h]

theorem recF32_head (bs rest : List Nat) (h : bs.length = 4) :
    recF32 (bs ++ rest) 0 = decN32 bs := by
  unfold recF32
  rw [Nat.mul_zero, List.drop_zero, List.take_left' h]

theorem recF32_shift (bs rest : List Nat) (h : bs.length = 4) (k : Nat) :
    recF32 (bs ++ rest) (k + 1) = recF32 rest k := by
  unfold recF32
  rw [show 4 * (k + 1) = bs.length + 4 * k by omega, List.drop_append]

theorem writeVertex_length (v : Vtx) : (writeVertex v).length = 44 := rfl

theorem recPos_writeVertex (v : Vtx) (h : VtxWf v) : recPos (writeVertex v) = v.pos := by
  obtain ⟨h1, h2, h3, _, _, _, _, _⟩ := h
  show (recF32 (writeVertex v) 0, recF32 (writeVertex v) 1, recF32 (writeVertex v) 2) = v.pos
  rw [show writeVertex v = encF32 v.pos.1 ++ (encF32 v.pos.2.1 ++ (encF32 v.pos.2.2 ++
    ([encF32 v.normal.1, encF32 v.normal.2.1, encF32 v.normal.2.2,
      encF32 v.uv.1, encF32 v.uv.2,
      encF32 v.tangent.1, encF32 v.tangent.2.1, encF32 v.tangent.2.2].flatten))) from rfl]
  rw [recF32_head _ _ (encF32_length _), recF32_shift _ _ (encF32_length _),
    recF32_head _ _ (encF32_length _), recF32_shift _ _ (encF32_length _),
    recF32_shift _ _ (encF32_length _), recF32_head _ _ (encF32_length _),
    decN32_encF32 _ h1, decN32_encF32 _ h2, decN32_encF32 _ h3]

theorem recNormal_writeVertex (v : Vtx) (h : VtxWf v) :
    recNormal (writeVertex v) = v.normal := by
  obtain ⟨_, _, _, h4, h5, h6, _, _⟩ := h
  show (recF32 (writeVertex v) 3, recF32 (writeVertex v) 4, recF32 (writeVertex v) 5) = v.normal
  rw [show writeVertex v = encF32 v.pos.1 ++ (encF32 v.pos.2.1 ++ (encF32 v.pos.2.2 ++
    (encF32 v.normal.1 ++ (encF32 v.normal.2.1 ++ (encF32 v.normal.2.2 ++
    ([encF32 v.uv.1, encF32 v.uv.2,
      encF32 v.tangent.1, encF32 v.tangent.2.1, encF32 v.tangent.2.2].flatten)))))) from rfl]
  rw [recF32_shift _ _ (encF32_length _), recF32_shift _ _ (encF32_length _),
    recF32_shift _ _ (encF32_length _), recF32_head _ _ (encF32_length _),
    recF32_shift _ _ (encF32_length _), recF32_shift _ _ (encF32_length _),
    recF32_shift _ _ (encF32_length _), recF32_shift _ _ (encF32_length _),
    recF32_head _ _ (encF32_length _), recF32_shift _ _ (encF32_length _),
    recF32_shift _ _ (encF32_length _), recF32_shift _ _ (encF32_length _),
    recF32_shift _ _ (encF32_length _), recF32_shift _ _ (encF32_length _),
    recF32_head _ _ (encF32_length _),
    decN32_encF32 _ h4, decN32_encF32 _ h5, decN32_encF32 _ h6]

theorem recUv_writeVertex (v : Vtx) (h : VtxWf v) : recUv (writeVertex v) = v.uv := by
  obtain ⟨_, _, _, _, _, _, h7, h8⟩ := h
  show (recF32 (writeVertex v) 6, recF32 (writeVertex v) 7) = v.uv
  rw [show writeVertex v = encF32 v.pos.1 ++ (encF32 v.pos.2.1 ++ (encF32 v.pos.2.2 ++
    (encF32 v.normal.1 ++ (encF32 v.normal.2.1 ++ (encF32 v.normal.2.2 ++
    (encF32 v.uv.1 ++ (encF32 v.uv.2 ++
    ([encF32 v.tangent.1, encF32 v.tangent.2.1, encF32 v.tangent.2.2].flatten)))))))) from rfl]
  rw [recF32_shift _ _ (encF32_length _), recF32_shift _ _ (encF32_length _),
    recF32_shift _ _ (encF32_length _), recF32_shift _ _ (encF32_length _),
    recF32_shift _ _ (encF32_length _), recF32_shift _ _ (encF32_length _),
    recF32_head _ _ (encF32_length _), recF32_shift _ _ (encF32_length _),
    recF32_shift _ _ (encF32_length _), recF32_shift _ _ (encF32_length _),
    recF32_shift _ _ (encF32_length _), recF32_shift _ _ (encF32_length _),
    recF32_shift _ _ (encF32_length _), recF32_shift _ _ (encF32_length _),
    recF32_head _ _ (encF32_length _),
    decN32_encF32 _ h7, decN32_encF32 _ h8]

theorem vblock_length (vs : List Vtx) :
    ((vs.map writeVertex).flatten).length = vs.length * 44 := by
  induction vs with
  | nil => rfl
  | cons v t ih =>
    rw [List.map_cons, List.flatten_cons, List.length_append, writeVertex_length, ih,
      List.length_cons]
    ring

theorem splitVertexBlock_eq (vs : List Vtx) (rest : List Nat) :
    splitVertexBlock vs.length ((vs.map writeVertex).flatten ++ rest) =
      vs.map writeVertex := by
  induction vs generalizing rest with
  | nil => rfl
  | cons v t ih =>
    rw [List.map_cons, List.flatten_cons, List.length_cons]
    show ((writeVertex v ++ (t.map writeVertex).flatten ++ rest).take 44) ::
        splitVertexBlock t.length ((writeVertex v ++ (t.map writeVertex).flatten ++ rest).drop 44) =
      writeVertex v :: t.map writeVertex
    rw [List.append_assoc, List.take_left' (writeVertex_length v),
      List.drop_left' (writeVertex_length v), ih]

theorem encU16raw_length (n : Nat) : (encU16raw n).length = 2 := rfl

theorem encU16_ok (n : Nat) (h : n ≤ 65535) : encU16 n = some (encU16raw n) := if_pos h

theorem iblock_length (idx : List Nat) :
    ((idx.map encU16raw).flatten).length = idx.length * 2 := by
  induction idx with
  | nil => rfl
  | cons i t ih =>
    rw [List.map_cons, List.flatten_cons, List.length_append, encU16raw_length, ih,
      List.length_cons]
    ring

theorem splitU16_enc (idx : List Nat) (hb : ∀ i ∈ idx, i < 65536) :
    splitU16 ((idx.map encU16raw).flatten) = idx := by
  induction idx with
  | nil => rfl
  | cons i t ih =>
    show (i % 256 + 256 * (i / 256)) :: splitU16 ((t.map encU16raw).flatten) = i :: t
    rw [ih (fun j hj => hb j (List.mem_cons_of_mem i hj))]
    congr 1
    have := hb i (List.mem_cons_self i t)
    omega

theorem encIndexTriples_eq (idx : List Nat) (h3 : idx.length % 3 = 0)
    (hb : ∀ i ∈ idx, i < 65536) :
    encIndexTriples idx = some ((idx.map encU16raw).flatten) := by
  induction idx using encIndexTriples.induct with
  | case1 => rfl
  | case2 a b c t ih =>
    rw [show encIndexTriples (a :: b :: c :: t) = (encU16 a >>= fun xa =>
      encU16 b >>= fun xb => encU16 c >>= fun xc => encIndexTriples t >>= fun xt =>
      some (xa ++ xb ++ xc ++ xt)) from rfl]
    have h3t : t.length % 3 = 0 := by
      simp only [List.length_cons] at h3
      omega
    rw [encU16_ok a (by have := hb a (by simp); omega),
      encU16_ok b (by have := hb b (by simp); omega),
      encU16_ok c (by have := hb c (by simp); omega),
      ih h3t (fun j hj => hb j (by simp [hj]))]
    simp only [option_bind_some]
    rfl
  | case3 l h1 h2 =>
    exfalso
    rcases l with _ | ⟨a, _ | ⟨b, _ | ⟨c, t⟩⟩⟩
    · exact h1 rfl
    · simp at h3
    · simp at h3
    · exact h2 a b c t rfl

theorem encIndexTriples_none (idx : List Nat) (hx : ∃ i ∈ idx, 65535 < i) :
    encIndexTriples idx = none := by
  induction idx using encIndexTriples.induct with
  | case1 => simp at hx
  | case2 a b c t ih =>
    rw [show encIndexTriples (a :: b :: c :: t) = (encU16 a >>= fun xa =>
      encU16 b >>= fun xb => encU16 c >>= fun xc => encIndexTriples t >>= fun xt =>
      some (xa ++ xb ++ xc ++ xt)) from rfl]
    obtain ⟨i, hi, hgt⟩ := hx
    rcases List.mem_cons.mp hi with rfl | hi2
    · rw [show encU16 i = none from if_neg (by omega)]
      rfl
    rcases List.mem_cons.mp hi2 with rfl | hi3
    · by_cases ha : a ≤ 65535
      · rw [encU16_ok a ha, option_bind_some, show encU16 i = none from if_neg (by omega)]
        rfl
      · rw [show encU16 a = none from if_neg ha]
        rfl
    rcases List.mem_cons.mp hi3 with rfl | hi4
    · by_cases ha : a ≤ 65535
      · by_cases hbb : b ≤ 65535
        · rw [encU16_ok a ha, option_bind_some, encU16_ok b hbb, option_bind_some,
            show encU16 i = none from if_neg (by omega)]
          rfl
        · rw [encU16_ok a ha, option_bind_some, show encU16 b = none from if_neg hbb]
          rfl
      · rw [show encU16 a = none from if_neg ha]
        rfl
    · by_cases ha : a ≤ 65535
      · by_cases hbb : b ≤ 65535
        · by_cases hc : c ≤ 65535
          · rw [encU16_ok a ha, option_bind_some, encU16_ok b hbb, option_bind_some,
              encU16_ok c hc, option_bind_some, ih ⟨i, hi4, hgt⟩]
            rfl
          · rw [encU16_ok a ha, option_bind_some, encU16_ok b hbb, option_bind_some,
              show encU16 c = none from if_neg hc]
            rfl
        · rw [encU16_ok a ha, option_bind_some, show encU16 b = none from if_neg hbb]
          rfl
      · rw [show encU16 a = none from if_neg ha]
        rfl
  | case3 l h1 h2 =>
    rcases l with _ | ⟨a, _ | ⟨b, _ | ⟨c, t⟩⟩⟩
    · exact absurd rfl h1
    · rfl
    · rfl
    · exact absurd rfl (h2 a b c t)

/-! ## C1: mesh-node write/parse round trip -/

theorem encI32_ok (n : Int) (h1 : -(2 ^ 31) ≤ n) (h2 : n < 2 ^ 31) :
    encI32 n = some (encI32raw n) := if_pos ⟨h1, h2⟩

theorem write_string_ok (s : List Nat) (h : (s.length : Int) < 2 ^ 31) :
    write_string s = some (encI32raw (s.length : Int) ++ s) := by
  unfold write_string
  rw [encI32_ok _ (by omega) h, option_bind_some]
  rfl

theorem splitVertexBlock_flat (vs : List Vtx) :
    splitVertexBlock vs.length ((vs.map writeVertex).flatten) = vs.map writeVertex := by
  have h := splitVertexBlock_eq vs []
  rwa [List.append_nil] at h

theorem drop29_chunks (a b c d e f g : List Nat) (x : Nat) (r : List Nat)
    (ha : a.length = 4) (hb : b.length = 4) (hc : c.length = 4) (hd : d.length = 4)
    (he : e.length = 4) (hf : f.length = 4) (hg : g.length = 4) :
    (a ++ (b ++ (c ++ (d ++ (e ++ (f ++ (g ++ ([x] ++ r)))))))).drop 29 = r := by
  rw [show (29 : Nat) = a.length + (b.length + (c.length + (d.length +
      (e.length + (f.length + (g.length + 1)))))) by omega,
    List.drop_append, List.drop_append, List.drop_append, List.drop_append,
    List.drop_append, List.drop_append, List.drop_append]
  rfl

/-- C1: writing any mesh node (triangle index list, 16-bit indices, any
in-range material id, name within the reader's string bound, vertex
fields genuine f32 patterns) succeeds and produces exactly the
meshNodeBytes layout, and parsing that stream with parse_node appends
one mesh record whose positions, normals, uvs, flat index list and
material id are identical to what was written, consuming exactly the
node's bytes. -/
theorem mesh_node_round_trip (bsphere : List Vtx → Nat × Nat × Nat × Nat)
    (name : List Nat) (vs : List Vtx) (idx : List Nat) (matId : Int)
    (hname : name.length ≤ 10000)
    (hv : ∀ v ∈ vs, VtxWf v) (hvc : (vs.length : Int) < 2 ^ 31)
    (hidx : ∀ i ∈ idx, i < 65536) (h3 : idx.length % 3 = 0)
    (hic : (idx.length : Int) < 2 ^ 31)
    (hm1 : -(2 ^ 31) ≤ matId) (hm2 : matId < 2 ^ 31) :
    write_mesh_node bsphere name vs idx matId =
      some (meshNodeBytes bsphere name vs idx matId) ∧
    ∀ rest acc fuel, parse_node (fuel + 1) (meshNodeBytes bsphere name vs idx matId ++ rest) acc =
      .ok (acc ++ [{ name := name, verts := vs.map Vtx.pos, normals := vs.map Vtx.normal,
                     uvs := vs.map Vtx.uv, indices := idx, mat_id := matId,
                     tri_count := idx.length / 3 }], rest) := by
  constructor
  · unfold write_mesh_node
    rw [encI32_ok 2 (by norm_num) (by norm_num), option_bind_some,
      write_string_ok name (by omega), option_bind_some,
      encI32_ok 0 (by norm_num) (by norm_num), option_bind_some,
      show encU8 1 = some [1] from rfl, option_bind_some,
      encI32_ok (vs.length : Int) (by omega) hvc, option_bind_some,
      encI32_ok (idx.length : Int) (by omega) hic, option_bind_some,
      encIndexTriples_eq idx h3 hidx, option_bind_some,
      encI32_ok matId hm1 hm2, option_bind_some, option_bind_some]
    rfl
  · intro rest acc fuel
    unfold meshNodeBytes
    simp only [List.append_assoc, parse_node]
    rw [readI32_enc 2 _ (by norm_num) (by norm_num), except_bind_ok]
    dsimp only
    rw [read_string_enc name _ hname, except_bind_ok]
    dsimp only
    rw [readI32_enc 0 _ (by norm_num) (by norm_num), except_bind_ok]
    dsimp only
    rw [readBytes_exact [1] _ 1 rfl, except_bind_ok]
    dsimp only
    rw [if_neg (by decide : ¬(2 : Int) = 1), if_pos (rfl : (2 : Int) = 2),
      List.drop_left' (show ([1, 1, 0] : List Nat).length = 3 from rfl),
      readI32_enc (vs.length : Int) _ (by omega) hvc, except_bind_ok]
    dsimp only
    simp only [Int.toNat_natCast]
    rw [readBytes_exact _ _ (vs.length * 44) (by rw [vblock_length]), except_bind_ok]
    dsimp only
    rw [readI32_enc (idx.length : Int) _ (by omega) hic, except_bind_ok]
    dsimp only
    simp only [Int.toNat_natCast]
    rw [readBytes_exact _ _ (idx.length * 2) (by rw [iblock_length]), except_bind_ok]
    dsimp only
    rw [readI32_enc matId _ hm1 hm2, except_bind_ok]
    dsimp only
    rw [drop29_chunks _ _ _ _ _ _ _ _ _ (encI32raw_length _) (encF32_length _)
      (encF32_length _) (encF32_length _) (encF32_length _) (encF32_length _)
      (encF32_length _)]
    have hp : List.map recPos (List.map writeVertex vs) = List.map Vtx.pos vs := by
      rw [List.map_map]
      exact List.map_congr_left (fun v hv2 => recPos_writeVertex v (hv v hv2))
    have hnm : List.map recNormal (List.map writeVertex vs) = List.map Vtx.normal vs := by
      rw [List.map_map]
      exact List.map_congr_left (fun v hv2 => recNormal_writeVertex v (hv v hv2))
    have hu : List.map recUv (List.map writeVertex vs) = List.map Vtx.uv vs := by
      rw [List.map_map]
      exact List.map_congr_left (fun v hv2 => recUv_writeVertex v (hv v hv2))
    rw [splitVertexBlock_flat, splitU16_enc idx hidx, hp, hnm, hu]
    show parseChildren fuel (Int.toNat 0) rest _ = _
    rw [show Int.toNat 0 = 0 from rfl]
    simp only [parseChildren]

/-- Witness for the C1 theorem at a concrete one-triangle mesh node. -/
theorem mesh_node_round_trip_witness :
    write_mesh_node (fun _ => (0, 0, 0, 0)) [65] [⟨(1, 2, 3), (4, 5, 6), (7, 8), (9, 10, 11)⟩]
        [0, 0, 0] 5 =
      some (meshNodeBytes (fun _ => (0, 0, 0, 0)) [65]
        [⟨(1, 2, 3), (4, 5, 6), (7, 8), (9, 10, 11)⟩] [0, 0, 0] 5) ∧
    parse_node 1 (meshNodeBytes (fun _ => (0, 0, 0, 0)) [65]
        [⟨(1, 2, 3), (4, 5, 6), (7, 8), (9, 10, 11)⟩] [0, 0, 0] 5 ++ [9, 9]) [] =
      .ok ([{ name := [65], verts := [(1, 2, 3)], normals := [(4, 5, 6)], uvs := [(7, 8)],
              indices := [0, 0, 0], mat_id := 5, tri_count := 1 }], [9, 9]) := by
  have h := mesh_node_round_trip (fun _ => (0, 0, 0, 0)) [65]
    [⟨(1, 2, 3), (4, 5, 6), (7, 8), (9, 10, 11)⟩] [0, 0, 0] 5
    (by decide) (by decide) (by decide) (by decide) (by decide) (by decide)
    (by decide) (by decide)
  exact ⟨h.1, h.2 [9, 9] [] 0⟩

/-! ## C6: the 16-bit capacity warning and what actually happens -/

theorem lookup_none_of_keys_ne {α β : Type} [BEq α] [LawfulBEq α]
    (l : List (α × β)) (k : α) (h : ∀ p ∈ l, p.1 ≠ k) : l.lookup k = none := by
  induction l with
  | nil => rfl
  | cons p t ih =>
    obtain ⟨k2, b⟩ := p
    simp only [List.lookup]
    rw [show (k == k2) = false from beq_eq_false_iff_ne.mpr
      (fun he => h (k2, b) (List.mem_cons_self _ _) he.symm)]
    exact ih (fun q hq => h q (List.mem_cons_of_mem _ hq))

theorem lookup_some_mem {α β : Type} [BEq α] (l : List (α × β)) (k : α) (v : β)
    (h : l.lookup k = some v) : ∃ p ∈ l, p.2 = v := by
  induction l with
  | nil => cases h
  | cons p t ih =>
    obtain ⟨k2, b⟩ := p
    simp only [List.lookup] at h
    cases hbe : (k == k2) with
    | true =>
      rw [hbe] at h
      exact ⟨(k2, b), List.mem_cons_self _ _, Option.some_inj.mp h⟩
    | false =>
      rw [hbe] at h
      obtain ⟨q, hq, hv⟩ := ih h
      exact ⟨q, List.mem_cons_of_mem _ hq, hv⟩

/-- Deduplicating pairwise distinct corners keeps every corner and
numbers them consecutively. -/
theorem dedup_bigCorners (n : Nat) :
    ((List.range n).map bigCorner).foldl dedupStep ([], [], []) =
      ((List.range n).map bigCorner, List.range n, dedupMapN n) := by
  induction n with
  | zero => rfl
  | succ m ih =>
    rw [List.range_succ, List.map_append, List.foldl_append, ih]
    show dedupStep ((List.range m).map bigCorner, List.range m, dedupMapN m) (bigCorner m) = _
    unfold dedupStep
    rw [lookup_none_of_keys_ne _ _ (fun p hp => ?_)]
    · show ((List.range m).map bigCorner ++ [bigCorner m], List.range m ++ [((List.range m).map bigCorner).length], (vkey (bigCorner m), ((List.range m).map bigCorner).length) :: dedupMapN m) = _
      rw [List.length_map, List.length_range]
      refine congrArg₂ _ rfl (congrArg₂ _ rfl ?_)
      unfold dedupMapN
      rw [List.range_succ, List.map_append, List.reverse_append]
      rfl
    · unfold dedupMapN at hp
      rw [List.mem_reverse, List.mem_map] at hp
      obtain ⟨i, hi, rfl⟩ := hp
      have him : i < m := List.mem_range.mp hi
      unfold vkey bigCorner
      intro he
      have : (i, 0, 0) = ((m : Nat), 0, 0) := congrArg Prod.fst he
      have : i = m := congrArg Prod.fst this
      omega

theorem get_mesh_data_fst (corners : List Vtx) :
    (get_mesh_data corners).1 = (corners.foldl dedupStep ([], [], [])).1 := rfl

theorem get_mesh_data_snd (corners : List Vtx) :
    (get_mesh_data corners).2 = (corners.foldl dedupStep ([], [], [])).2.1 := rfl

theorem get_mesh_data_bigCorners :
    get_mesh_data bigCorners = (bigCorners, List.range 65538) := by
  unfold get_mesh_data bigCorners
  rw [dedup_bigCorners]

theorem bigCorners_length : bigCorners.length = 65538 := by
  unfold bigCorners
  rw [List.length_map, List.length_range]

/-- C6 counterexample: a mesh with 65538 deduplicated vertices does emit
the capacity warning, but the export of its node does not continue to a
produced file: packing index 65536 as a uint16 raises struct.error, so
write_mesh_node fails instead of producing the node. -/
theorem capacity_overflow_fails :
    capacity_warning bigCorners = true ∧
      write_mesh_node (fun _ => (0, 0, 0, 0)) [65] (get_mesh_data bigCorners).1
        (get_mesh_data bigCorners).2 0 = none := by
  constructor
  · unfold capacity_warning
    rw [get_mesh_data_bigCorners]
    simp only [bigCorners_length]
    rfl
  · rw [get_mesh_data_bigCorners]
    unfold write_mesh_node
    rw [encI32_ok 2 (by norm_num) (by norm_num), option_bind_some,
      write_string_ok [65] (by norm_num), option_bind_some,
      encI32_ok 0 (by norm_num) (by norm_num), option_bind_some,
      show encU8 1 = some [1] from rfl, option_bind_some,
      bigCorners_length, List.length_range,
      encI32_ok ((65538 : Nat) : Int) (by norm_num) (by norm_num), option_bind_some,
      encIndexTriples_none _ ⟨65536, List.mem_range.mpr (by norm_num), by norm_num⟩]
    rfl

theorem dedupStep_idx_len (st : List Vtx × List Nat × List (VKeyT × Nat)) (c : Vtx) :
    ((dedupStep st c).2.1).length = st.2.1.length + 1 := by
  unfold dedupStep
  cases hlk : st.2.2.lookup (vkey c) <;> simp

theorem dedupStep_verts_len (st : List Vtx × List Nat × List (VKeyT × Nat)) (c : Vtx) :
    ((dedupStep st c).1).length ≤ st.1.length + 1 := by
  unfold dedupStep
  cases hlk : st.2.2.lookup (vkey c) <;> simp

theorem dedup_lengths (corners : List Vtx) (st : List Vtx × List Nat × List (VKeyT × Nat)) :
    ((corners.foldl dedupStep st).2.1).length = st.2.1.length + corners.length ∧
      ((corners.foldl dedupStep st).1).length ≤ st.1.length + corners.length := by
  induction corners generalizing st with
  | nil => simp
  | cons c t ih =>
    rw [List.foldl_cons]
    obtain ⟨ha, hb⟩ := ih (dedupStep st c)
    refine ⟨?_, ?_⟩
    · rw [ha, dedupStep_idx_len, List.length_cons]
      omega
    · have := dedupStep_verts_len st c
      rw [List.length_cons]
      omega

theorem dedupStep_inv (st : List Vtx × List Nat × List (VKeyT × Nat)) (c : Vtx)
    (h1 : ∀ j ∈ st.2.1, j < st.1.length) (h2 : ∀ p ∈ st.2.2, p.2 < st.1.length) :
    (∀ j ∈ (dedupStep st c).2.1, j < ((dedupStep st c).1).length) ∧
      (∀ p ∈ (dedupStep st c).2.2, p.2 < ((dedupStep st c).1).length) := by
  unfold dedupStep
  cases hlk : st.2.2.lookup (vkey c) with
  | some i =>
    constructor
    · intro j hj
      rcases List.mem_append.mp hj with hj2 | hj2
      · exact h1 j hj2
      · rw [List.mem_singleton.mp hj2]
        obtain ⟨p, hp, rfl⟩ := lookup_some_mem _ _ _ hlk
        exact h2 p hp
    · exact h2
  | none =>
    constructor
    · intro j hj
      rw [List.length_append]
      rcases List.mem_append.mp hj with hj2 | hj2
      · have := h1 j hj2
        simp only [List.length_cons, List.length_nil]
        omega
      · rw [List.mem_singleton.mp hj2]
        simp only [List.length_cons, List.length_nil]
        omega
    · intro p hp
      rw [List.length_append]
      rcases List.mem_cons.mp hp with rfl | hp2
      · simp only [List.length_cons, List.length_nil]
        omega
      · have := h2 p hp2
        simp only [List.length_cons, List.length_nil]
        omega

theorem dedup_invariant (corners : List Vtx) (st : List Vtx × List Nat × List (VKeyT × Nat))
    (h1 : ∀ j ∈ st.2.1, j < st.1.length) (h2 : ∀ p ∈ st.2.2, p.2 < st.1.length) :
    (∀ j ∈ (corners.foldl dedupStep st).2.1, j < ((corners.foldl dedupStep st).1).length) := by
  induction corners generalizing st with
  | nil => exact h1
  | cons c t ih =>
    rw [List.foldl_cons]
    obtain ⟨g1, g2⟩ := dedupStep_inv st c h1 h2
    exact ih _ g1 g2

theorem dedupStep_range (st : List Vtx × List Nat × List (VKeyT × Nat)) (c : Vtx)
    (h : ∀ k, k < st.1.length → k ∈ st.2.1) :
    ∀ k, k < ((dedupStep st c).1).length → k ∈ (dedupStep st c).2.1 := by
  unfold dedupStep
  cases hlk : st.2.2.lookup (vkey c) with
  | some i =>
    intro k hk
    exact List.mem_append_left _ (h k hk)
  | none =>
    intro k hk
    rw [List.length_append, List.length_cons, List.length_nil] at hk
    by_cases hkl : k < st.1.length
    · exact List.mem_append_left _ (h k hkl)
    · have hke : k = st.1.length := by omega
      subst hke
      exact List.mem_append_right _ (List.mem_singleton.mpr rfl)

/-- Every index below the deduplicated vertex count occurs in the index
list: each vertex's creation appends its own index. -/
theorem dedup_range (corners : List Vtx) (st : List Vtx × List Nat × List (VKeyT × Nat))
    (h : ∀ k, k < st.1.length → k ∈ st.2.1) :
    ∀ k, k < ((corners.foldl dedupStep st).1).length →
      k ∈ (corners.foldl dedupStep st).2.1 := by
  induction corners generalizing st with
  | nil => exact h
  | cons c t ih =>
    rw [List.foldl_cons]
    exact ih _ (dedupStep_range st c h)

/-- An index list the uint16 packing rejects makes the whole node write
fail, whatever the other components do. -/
theorem write_mesh_node_none (bsphere : List Vtx → Nat × Nat × Nat × Nat)
    (name : List Nat) (vs : List Vtx) (idx : List Nat) (matId : Int)
    (h : encIndexTriples idx = none) :
    write_mesh_node bsphere name vs idx matId = none := by
  unfold write_mesh_node
  rw [encI32_ok 2 (by norm_num) (by norm_num), option_bind_some]
  cases h2 : write_string name with
  | none => rfl
  | some nm =>
    rw [option_bind_some, encI32_ok 0 (by norm_num) (by norm_num), option_bind_some,
      show encU8 1 = some [1] from rfl, option_bind_some]
    cases h5 : encI32 (vs.length : Int) with
    | none => rfl
    | some vc =>
      rw [option_bind_some]
      cases h6 : encI32 (idx.length : Int) with
      | none => rfl
      | some ic =>
        rw [option_bind_some, h]
        rfl

/-- C6 as amended: the writer warns whenever the deduplicated vertex
count exceeds 65535; the export continues to a produced node exactly
when the count is at most 65536 (all indices then fit in 16 bits) — for
every larger count the index list necessarily contains an index of at
least 65536, the uint16 packing raises, and no node is produced. -/
theorem capacity_warning_amended (bsphere : List Vtx → Nat × Nat × Nat × Nat)
    (name : List Nat) (corners : List Vtx) (matId : Int) :
    (65535 < (get_mesh_data corners).1.length → capacity_warning corners = true) ∧
      ((get_mesh_data corners).1.length ≤ 65536 → corners.length % 3 = 0 →
        (name.length : Int) < 2 ^ 31 → (corners.length : Int) < 2 ^ 31 →
        -(2 ^ 31) ≤ matId → matId < 2 ^ 31 →
        ∃ bytes, write_mesh_node bsphere name (get_mesh_data corners).1
          (get_mesh_data corners).2 matId = some bytes) ∧
      (65536 < (get_mesh_data corners).1.length →
        write_mesh_node bsphere name (get_mesh_data corners).1
          (get_mesh_data corners).2 matId = none) := by
  refine ⟨?_, ?_, ?_⟩
  · intro h
    unfold capacity_warning
    exact decide_eq_true h
  · intro hcount h3 hname hclen hm1 hm2
    rw [get_mesh_data_fst] at hcount
    rw [get_mesh_data_fst, get_mesh_data_snd]
    obtain ⟨hlen1, hlen2⟩ := dedup_lengths corners ([], [], [])
    simp only [List.length_nil, Nat.zero_add] at hlen1 hlen2
    have hinv := dedup_invariant corners ([], [], []) (by simp) (by simp)
    unfold write_mesh_node
    rw [encI32_ok 2 (by norm_num) (by norm_num), option_bind_some,
      write_string_ok name hname, option_bind_some,
      encI32_ok 0 (by norm_num) (by norm_num), option_bind_some,
      show encU8 1 = some [1] from rfl, option_bind_some,
      encI32_ok _ (by omega) (by omega), option_bind_some,
      encI32_ok _ (by omega) (by omega), option_bind_some,
      encIndexTriples_eq _ (by omega) (fun i hi => by have := hinv i hi; omega),
      option_bind_some,
      encI32_ok matId hm1 hm2, option_bind_some, option_bind_some]
    exact ⟨_, rfl⟩
  · intro hover
    rw [get_mesh_data_fst] at hover
    rw [get_mesh_data_fst, get_mesh_data_snd]
    apply write_mesh_node_none
    apply encIndexTriples_none
    refine ⟨65536, ?_, by norm_num⟩
    exact dedup_range corners ([], [], []) (by intro k hk; simp at hk) 65536 (by omega)

/-- Witness for the amended C6 theorem: the warning and failure branches
at the 65538-vertex mesh, and a successful continuation at a small
3-corner mesh. -/
theorem capacity_warning_amended_witness :
    capacity_warning bigCorners = true ∧
      (∃ bytes, write_mesh_node (fun _ => (0, 0, 0, 0)) [65]
        (get_mesh_data [bigCorner 0, bigCorner 1, bigCorner 2]).1
        (get_mesh_data [bigCorner 0, bigCorner 1, bigCorner 2]).2 0 = some bytes) ∧
      write_mesh_node (fun _ => (0, 0, 0, 0)) [66] (get_mesh_data bigCorners).1
        (get_mesh_data bigCorners).2 7 = none :=
  ⟨(capacity_warning_amended (fun _ => (0, 0, 0, 0)) [65] bigCorners 0).1
      (by rw [get_mesh_data_bigCorners]
          dsimp only
          rw [bigCorners_length]
          norm_num),
   (capacity_warning_amended (fun _ => (0, 0, 0, 0)) [65]
      [bigCorner 0, bigCorner 1, bigCorner 2] 0).2.1
      (by decide) (by decide) (by decide) (by decide) (by decide) (by decide),
   (capacity_warning_amended (fun _ => (0, 0, 0, 0)) [66] bigCorners 7).2.2
      (by rw [get_mesh_data_bigCorners]
          dsimp only
          rw [bigCorners_length]
          norm_num)⟩

/-! ## C7: the child-count invariant of the written node tree -/

theorem serializeKids_meshObjs (bsphere : List Vtx → Nat × Nat × Nat × Nat)
    (ms : List MeshObj) :
    serializeKids bsphere (ms.map (fun o => KNode.mesh o.name (get_mesh_data o.corners).1
      (get_mesh_data o.corners).2 o.matId)) = writeMeshObjs bsphere ms := by
  induction ms with
  | nil => simp only [List.map_nil, serializeKids, writeMeshObjs]
  | cons o t ih =>
    simp only [List.map_cons, serializeKids, serializeNode, writeMeshObjs, ih]

theorem serializeKids_markerObjs (bsphere : List Vtx → Nat × Nat × Nat × Nat)
    (es : List MarkerObj) :
    serializeKids bsphere (es.map (fun e => KNode.dummy e.name (obj_to_matrix e.world)
      [KNode.mesh e.name box_verts box_indices 0])) = writeMarkerObjs bsphere es := by
  induction es with
  | nil => simp only [List.map_nil, serializeKids, writeMarkerObjs]
  | cons e t ih =>
    simp only [List.map_cons, serializeKids, serializeNode, writeMarkerObjs, ih,
      List.length_cons, List.length_nil, Nat.zero_add, Nat.cast_one,
      bind_assoc, pure_bind, option_bind_some, List.append_nil, List.append_assoc]

theorem serializeKids_append (bsphere : List Vtx → Nat × Nat × Nat × Nat)
    (xs ys : List KNode) :
    serializeKids bsphere (xs ++ ys) = (do
      pure ((← serializeKids bsphere xs) ++ (← serializeKids bsphere ys))) := by
  induction xs with
  | nil =>
    rw [List.nil_append]
    rw [show serializeKids bsphere ([] : List KNode) = some [] from by
      simp only [serializeKids]]
    cases h : serializeKids bsphere ys with
    | none => rfl
    | some l => simp [Bind.bind, Option.bind]
  | cons c t ih =>
    rw [List.cons_append]
    simp only [serializeKids, ih]
    cases h1 : serializeNode bsphere c with
    | none => rfl
    | some n =>
      cases h2 : serializeKids bsphere t with
      | none => simp [Bind.bind, Option.bind]
      | some k =>
        cases h3 : serializeKids bsphere ys with
        | none => simp [Bind.bind, Option.bind]
        | some l => simp [Bind.bind, Option.bind, List.append_assoc]

/-- C7: the node section main emits is exactly the serialization of the
structured tree whose root dummy holds all mesh nodes followed by all
marker dummy-plus-box pairs — and the structured serializer writes, for
every dummy, a declared child count equal to the length of its actual
child list, followed by exactly those children (mesh nodes declare 0).
The remaining conjuncts spell out the counts the claim names: the root
declares mesh count plus marker count children, every marker dummy has
exactly the one box child, and the box has 24 vertices and 36 indices
bound to material id 0 (material and child count are part of mkTree by
construction). -/
theorem main_node_tree (bsphere : List Vtx → Nat × Nat × Nat × Nat)
    (ms : List MeshObj) (es : List MarkerObj) :
    mainNodeSection bsphere ms es = serializeNode bsphere (mkTree ms es) ∧
      nodeChildDecl (mkTree ms es) = ms.length + es.length ∧
      box_verts.length = 24 ∧ box_indices.length = 36 := by
  refine ⟨?_, ?_, by decide, by decide⟩
  · unfold mainNodeSection mkTree
    simp only [serializeNode]
    rw [serializeKids_append, serializeKids_meshObjs, serializeKids_markerObjs,
      List.length_append, List.length_map, List.length_map, Nat.cast_add]
    cases h1 : write_dummy_node root_name identity_matrix
        ((ms.length : Int) + (es.length : Int)) with
    | none => rfl
    | some hd =>
      cases h2 : writeMeshObjs bsphere ms with
      | none => simp [Bind.bind, Option.bind]
      | some m =>
        cases h3 : writeMarkerObjs bsphere es with
        | none => simp [Bind.bind, Option.bind]
        | some e => simp [Bind.bind, Option.bind, List.append_assoc]
  · unfold mkTree
    simp only [nodeChildDecl]
    rw [List.length_append, List.length_map, List.length_map]

end Track
